import Mathlib

/-! # notification_manager (Linux backend): a shallow embedding

The definitions below follow `linux/notification_manager_plugin.cc`.

* The preference file is a value of `PrefFile`; json-glib's parser and generator are taken
  to round-trip the file, and writing the file is taken to succeed.
* `std::map<std::string, V>` is `StdMap V`: the entries in ascending key order.
* A clock reading is an `Int` number of epoch seconds; each call of
  `std::chrono::system_clock::now()` is an explicit argument.
* libnotify is a log of the calls made into it (`OsCall`); what it returns (the fresh
  `NotifyNotification*`, the outcome of `notify_notification_show`) is an explicit argument.
* An operation returns `none` where the C++ has no defined result: an exception thrown by
  `std::stoll`, or a `std::string` constructed from a null `const gchar*`.
-/

namespace NotificationManager

/-! ## Machine integers and decimal text -/

/-- Smallest value of `long long`. -/
def INT64_MIN : Int := -9223372036854775808

/-- Largest value of `long long`. -/
def INT64_MAX : Int := 9223372036854775807

/-- Conversion of an `int64_t` to `int` (`int time_window = fl_value_get_int(...)`): the value
modulo `2^32`, taken in `[-2^31, 2^31)`. -/
def int64_to_int (x : Int) : Int := (x + 2147483648) % 4294967296 - 2147483648

/-- The character of a decimal digit `d < 10`. -/
def digit_char (d : Nat) : Char := Char.ofNat (48 + d)

/-- Decimal digits of `n`, most significant first; `fuel` bounds the number of digits. -/
def nat_digits_fuel : Nat → Nat → List Char
  | 0, _ => []
  | fuel + 1, n =>
    if n < 10 then [digit_char n] else nat_digits_fuel fuel (n / 10) ++ [digit_char (n % 10)]

/-- Decimal digits of `n` (`n + 1` is always enough fuel). -/
def nat_digits (n : Nat) : List Char := nat_digits_fuel (n + 1) n

/-- Model of `std::to_string(long long)`: decimal digits, with a leading `-` when negative. -/
def to_string (v : Int) : String :=
  match v with
  | Int.ofNat n => ⟨nat_digits n⟩
  | Int.negSucc n => ⟨'-' :: nat_digits (n + 1)⟩

/-- Model of C `isspace` in the "C" locale. -/
def isspace (c : Char) : Bool :=
  c.toNat = 32 || (9 ≤ c.toNat && c.toNat ≤ 13)

/-- Value of a run of decimal digits. -/
def digits_value (ds : List Char) : Nat :=
  ds.foldl (fun acc c => acc * 10 + (c.toNat - 48)) 0

/-- The optional sign read by `strtoll`: whether it is a minus, and the text after it. -/
def stoll_sign (cs : List Char) : Bool × List Char :=
  match cs with
  | '-' :: rest => (true, rest)
  | '+' :: rest => (false, rest)
  | _ => (false, cs)

/-- The value `std::stoll` returns for a sign and a run of digits; `none` stands for the
exception it throws: `std::invalid_argument` when there is no digit, `std::out_of_range` when
the value does not fit a `long long`. -/
def stoll_value (negative : Bool) (ds : List Char) : Option Int :=
  if ds = [] then none
  else
    let n : Int := (digits_value ds : Nat)
    let v : Int := if negative then -n else n
    if INT64_MIN ≤ v ∧ v ≤ INT64_MAX then some v else none

/-- Model of `std::stoll(str)` (base 10): skips leading white space, reads an optional sign and
the longest run of digits; `none` stands for the exception it throws. -/
def stoll (str : String) : Option Int :=
  let signed := stoll_sign (str.data.dropWhile isspace)
  stoll_value signed.1 (signed.2.takeWhile Char.isDigit)

/-! ## The order of `std::string` -/

/-- Lexicographic comparison of two character sequences: whether the first is less. -/
def chars_lt : List Char → List Char → Bool
  | _, [] => false
  | [], _ :: _ => true
  | a :: l, b :: r => if a < b then true else if a = b then chars_lt l r else false

/-- Model of `operator<` on `std::string` (the order of `std::map` keys): lexicographic on
the text. On UTF-8 text the byte order of the C++ and the code point order used here agree. -/
def string_lt (a b : String) : Bool := chars_lt a.data b.data

theorem chars_lt_irrefl (l : List Char) : chars_lt l l = false := by
  induction l with
  | nil => rfl
  | cons a l ih => simp [chars_lt, ih]

theorem chars_lt_trans : ∀ (x y z : List Char), chars_lt x y = true → chars_lt y z = true →
    chars_lt x z = true
  | _, [], _, h, _ => by simp [chars_lt] at h
  | _, _ :: _, [], _, h => by simp [chars_lt] at h
  | [], _ :: _, _ :: _, _, _ => by simp [chars_lt]
  | a :: x, b :: y, c :: z, h1, h2 => by
    simp only [chars_lt] at h1 h2 ⊢
    by_cases hab : a < b
    · by_cases hbc : b < c
      · simp [lt_trans hab hbc]
      · by_cases hbc2 : b = c
        · subst hbc2; simp [hab]
        · simp [hbc, hbc2] at h2
    · by_cases hab2 : a = b
      · subst hab2
        by_cases hbc : a < c
        · simp [hbc]
        · by_cases hbc2 : a = c
          · subst hbc2
            simp only [hbc, hab, if_false, if_true] at h1 h2 ⊢
            exact chars_lt_trans x y z h1 h2
          · simp [hbc, hbc2] at h2
      · simp [hab, hab2] at h1

theorem chars_lt_total : ∀ (x y : List Char), chars_lt x y = false → x ≠ y →
    chars_lt y x = true
  | [], [], _, hne => absurd rfl hne
  | [], _ :: _, h, _ => by simp [chars_lt] at h
  | _ :: _, [], _, _ => by simp [chars_lt]
  | a :: x, b :: y, h, hne => by
    simp only [chars_lt] at h ⊢
    by_cases hab : a < b
    · simp [hab] at h
    · by_cases hab2 : a = b
      · subst hab2
        simp only [hab, if_false, if_true] at h ⊢
        exact chars_lt_total x y h (fun e => hne (by rw [e]))
      · have hba : b < a := lt_of_le_of_ne (not_lt.1 hab) (fun e => hab2 e.symm)
        simp [hba]

theorem string_lt_ne (a b : String) (h : string_lt a b = true) : a ≠ b := by
  intro e
  subst e
  simp [string_lt, chars_lt_irrefl] at h

theorem string_lt_trans (a b c : String) (h1 : string_lt a b = true)
    (h2 : string_lt b c = true) : string_lt a c = true :=
  chars_lt_trans _ _ _ h1 h2

theorem string_lt_total (a b : String) (h : ¬ string_lt a b = true) (hne : a ≠ b) :
    string_lt b a = true :=
  chars_lt_total _ _ (by simpa using h) (fun e => hne (String.ext e))

/-! ## Association lists shared by the two map models -/

/-- Value stored under `key` in a list of key/value pairs (the first such pair). -/
def assoc_get {V : Type} : List (String × V) → String → Option V
  | [], _ => none
  | (a, x) :: rest, key => if a = key then some x else assoc_get rest key

/-- Replace the value of `key` where it stands, or add the pair at the end. -/
def assoc_set_tail {V : Type} : List (String × V) → String → V → List (String × V)
  | [], key, v => [(key, v)]
  | (a, x) :: rest, key, v =>
    if a = key then (a, v) :: rest else (a, x) :: assoc_set_tail rest key v

/-- Replace the value of `key` where it stands, or add the pair at its place in key order. -/
def assoc_set_sorted {V : Type} : List (String × V) → String → V → List (String × V)
  | [], key, v => [(key, v)]
  | (a, x) :: rest, key, v =>
    if string_lt key a then (key, v) :: (a, x) :: rest
    else if a = key then (a, v) :: rest
    else (a, x) :: assoc_set_sorted rest key v

/-- Drop the pair stored under `key`. -/
def assoc_erase {V : Type} (l : List (String × V)) (key : String) : List (String × V) :=
  l.filter (fun p => decide (p.1 ≠ key))

theorem assoc_set_tail_keys {V : Type} (l : List (String × V)) (key : String) (v : V) :
    (assoc_set_tail l key v).map Prod.fst =
      if key ∈ l.map Prod.fst then l.map Prod.fst else l.map Prod.fst ++ [key] := by
  induction l with
  | nil => simp [assoc_set_tail]
  | cons p rest ih =>
    obtain ⟨a, x⟩ := p
    by_cases h : a = key
    · subst h; simp [assoc_set_tail]
    · have h2 : ¬ key = a := fun e => h e.symm
      simp only [assoc_set_tail, if_neg h, List.map_cons, ih, List.mem_cons, h2, false_or]
      split <;> simp

theorem assoc_set_tail_nodup {V : Type} (l : List (String × V)) (key : String) (v : V)
    (h : (l.map Prod.fst).Nodup) : ((assoc_set_tail l key v).map Prod.fst).Nodup := by
  rw [assoc_set_tail_keys]
  split
  · exact h
  · next hk =>
    rw [List.nodup_append]
    refine ⟨h, List.nodup_singleton _, ?_⟩
    intro a ha hb
    simp only [List.mem_singleton] at hb
    exact hk (hb ▸ ha)

theorem assoc_erase_nodup {V : Type} (l : List (String × V)) (key : String)
    (h : (l.map Prod.fst).Nodup) : ((assoc_erase l key).map Prod.fst).Nodup :=
  h.sublist ((List.filter_sublist l).map Prod.fst)

theorem assoc_set_sorted_mem {V : Type} (l : List (String × V)) (key : String) (v : V)
    (p : String × V) (hp : p ∈ assoc_set_sorted l key v) : p.1 = key ∨ p ∈ l := by
  induction l with
  | nil => simp [assoc_set_sorted] at hp; left; rw [hp]
  | cons q rest ih =>
    obtain ⟨a, x⟩ := q
    unfold assoc_set_sorted at hp
    split at hp
    · rcases List.mem_cons.1 hp with h | h
      · left; rw [h]
      · right; exact h
    · split at hp
      · next hak =>
        rcases List.mem_cons.1 hp with h | h
        · left; rw [h]; exact hak
        · right; exact List.mem_cons_of_mem _ h
      · rcases List.mem_cons.1 hp with h | h
        · right; rw [h]; exact List.mem_cons_self _ _
        · rcases ih h with h2 | h2
          · left; exact h2
          · right; exact List.mem_cons_of_mem _ h2

theorem assoc_set_sorted_pairwise {V : Type} (l : List (String × V)) (key : String) (v : V)
    (h : l.Pairwise (fun p q => string_lt p.1 q.1 = true)) :
    (assoc_set_sorted l key v).Pairwise (fun p q => string_lt p.1 q.1 = true) := by
  induction l with
  | nil => simp [assoc_set_sorted]
  | cons q rest ih =>
    obtain ⟨a, x⟩ := q
    rw [List.pairwise_cons] at h
    unfold assoc_set_sorted
    split
    · next hlt =>
      refine List.pairwise_cons.2 ⟨?_, List.pairwise_cons.2 h⟩
      intro p hp
      rcases List.mem_cons.1 hp with e | e
      · rw [e]; exact hlt
      · exact string_lt_trans _ _ _ hlt (h.1 p e)
    · next hnlt =>
      split
      · exact List.pairwise_cons.2 ⟨fun p hp => h.1 p hp, h.2⟩
      · next hne =>
        refine List.pairwise_cons.2 ⟨?_, ih h.2⟩
        intro p hp
        rcases assoc_set_sorted_mem rest key v p hp with e | e
        · rw [e]
          exact string_lt_total key a hnlt (fun e => hne e.symm)
        · exact h.1 p e

theorem assoc_erase_pairwise {V : Type} (l : List (String × V)) (key : String)
    (h : l.Pairwise (fun p q => string_lt p.1 q.1 = true)) :
    (assoc_erase l key).Pairwise (fun p q => string_lt p.1 q.1 = true) :=
  h.sublist (List.filter_sublist l)

/-! ## The preference file (json-glib) -/

/-- A node of a JSON tree, as far as the plugin looks at it: a string value, or any other node
(number, boolean, null, array, object) kept by its text. -/
inductive JsonNode where
  | string (s : String)
  | other (raw : String)
  deriving DecidableEq, Repr

/-- A `JsonObject`: its members in file order, under distinct names. -/
structure JsonObject where
  members : List (String × JsonNode)
  distinct : (members.map Prod.fst).Nodup

instance : DecidableEq JsonObject := fun a b =>
  decidable_of_iff (a.members = b.members) (by cases a; cases b; simp)

/-- Result of `json_object_new`. -/
def json_object_new : JsonObject := ⟨[], List.nodup_nil⟩

/-- Model of `json_object_get_member`; `none` is the null pointer. -/
def json_object_get_member (obj : JsonObject) (name : String) : Option JsonNode :=
  assoc_get obj.members name

/-- Model of `json_object_set_member`: an existing member keeps its place and takes the new
node, a new member goes to the end. -/
def json_object_set_member (obj : JsonObject) (name : String) (node : JsonNode) : JsonObject :=
  ⟨assoc_set_tail obj.members name node, assoc_set_tail_nodup obj.members name node obj.distinct⟩

/-- Model of `json_object_remove_member`. -/
def json_object_remove_member (obj : JsonObject) (name : String) : JsonObject :=
  ⟨assoc_erase obj.members name, assoc_erase_nodup obj.members name obj.distinct⟩

/-- Model of `json_object_get_members`: the member names. -/
def json_object_get_members (obj : JsonObject) : List String := obj.members.map Prod.fst

/-- Model of `json_object_get_string_member`; `none` is the null pointer, returned when there
is no such member or when it does not hold a string. -/
def json_object_get_string_member (obj : JsonObject) (name : String) : Option String :=
  match json_object_get_member obj name with
  | some (JsonNode.string s) => some s
  | _ => none

/-- State of the file `notification_manager_prefs.json`: absent, present with text that
`json_parser_load_from_file` rejects, present with a root that is not an object, or an
object. -/
inductive PrefFile where
  | missing
  | unparsable (text : String)
  | non_object (text : String)
  | object (root : JsonObject)
  deriving DecidableEq

/-- Value of `DUPLICATE_KEY_PREFIX`. -/
def DUPLICATE_KEY_PREFIX : String := "notification_duplicate_"

/-- Value of `SCHEDULED_KEY_PREFIX`. -/
def SCHEDULED_KEY_PREFIX : String := "scheduled_notification_"

/-- Model of `g_str_has_prefix`. -/
def g_str_has_prefix (str pre : String) : Bool := pre.data.isPrefixOf str.data

/-- Model of `save_preferences` (lines 53-86): a fresh object receives every member of the
existing root object, when the file parses to one, then the new string member, and is written
over the file. -/
def save_preferences (file : PrefFile) (key value : String) : PrefFile :=
  let root_obj : JsonObject :=
    match file with
    | PrefFile.object existing_obj =>
      existing_obj.members.foldl (fun acc m => json_object_set_member acc m.1 m.2)
        json_object_new
    | _ => json_object_new
  PrefFile.object (json_object_set_member root_obj key (JsonNode.string value))

/-- Model of `load_preference` (lines 89-115). -/
def load_preference (file : PrefFile) (key : String) : String :=
  match file with
  | PrefFile.object root_obj =>
    match json_object_get_string_member root_obj key with
    | some value => value
    | none => ""
  | _ => ""

/-- Model of `is_duplicate_notification` (lines 118-131); `now` is the clock reading taken
inside, in whole seconds, and `none` the exception of `std::stoll`. The difference
`now - last_sent` is exact: both times are taken to lie in the range of
`system_clock::time_point`, as every clock reading does. -/
def is_duplicate_notification (file : PrefFile) (now : Int) (duplicate_key : String)
    (time_window_seconds : Int) : Option Bool :=
  if duplicate_key = "" then some false
  else
    let key := DUPLICATE_KEY_PREFIX ++ duplicate_key
    let last_sent_str := load_preference file key
    if last_sent_str = "" then some false
    else
      match stoll last_sent_str with
      | none => none
      | some last_sent => some (decide (now - last_sent < time_window_seconds))

/-- Model of `mark_notification_as_sent` (lines 134-142); `now` is the clock reading taken
inside. -/
def mark_notification_as_sent (file : PrefFile) (now : Int) (duplicate_key : String) :
    PrefFile :=
  if duplicate_key = "" then file
  else
    let key := DUPLICATE_KEY_PREFIX ++ duplicate_key
    let timestamp := now
    save_preferences file key (to_string timestamp)

/-! ## `std::map` with `std::string` keys -/

/-- A `std::map<std::string, V>`: its entries in strictly ascending key order. -/
structure StdMap (V : Type) where
  entries : List (String × V)
  ascending : entries.Pairwise (fun p q => string_lt p.1 q.1 = true)

namespace StdMap

variable {V : Type}

instance [DecidableEq V] : DecidableEq (StdMap V) := fun a b =>
  decidable_of_iff (a.entries = b.entries) (by cases a; cases b; simp)

/-- The empty map. -/
def empty : StdMap V := ⟨[], List.Pairwise.nil⟩

/-- Model of `m.find(key)`; `none` is `m.end()`. -/
def find (m : StdMap V) (key : String) : Option V := assoc_get m.entries key

/-- Model of `m[key] = value`. -/
def assign (m : StdMap V) (key : String) (value : V) : StdMap V :=
  ⟨assoc_set_sorted m.entries key value, assoc_set_sorted_pairwise m.entries key value m.ascending⟩

/-- Model of `m.erase(key)`. -/
def erase (m : StdMap V) (key : String) : StdMap V :=
  ⟨assoc_erase m.entries key, assoc_erase_pairwise m.entries key m.ascending⟩

/-- Erase the first entry, in iteration order, whose value satisfies `p` (the loop
`for (it = begin(); ...) if (p(it->second)) { erase(it); break; }`). -/
def erase_first (m : StdMap V) (p : V → Bool) : StdMap V :=
  ⟨m.entries.eraseP (fun e => p e.2), m.ascending.sublist (List.eraseP_sublist _)⟩

/-- Model of `m.clear()`. -/
def clear (_m : StdMap V) : StdMap V := empty

end StdMap

/-! ## Method-call arguments (`FlValue`) -/

/-- An `FlValue` of the platform channel. Map keys are strings: the plugin only looks members
up by string. `other` stands for the types the plugin never reads (floats, typed lists). -/
inductive FlValue where
  | null
  | bool (b : Bool)
  | int (i : Int)
  | string (s : String)
  | list (items : List FlValue)
  | map (pairs : List (String × FlValue))
  | other (tag : Nat)

/-- Test `fl_value_get_type(v) == FL_VALUE_TYPE_MAP`. -/
def FlValue.is_map : FlValue → Bool
  | FlValue.map _ => true
  | _ => false

/-- Model of `fl_value_lookup_string`: the value stored under `key` in a map; `none` is the
null pointer. -/
def fl_value_lookup_string (v : FlValue) (key : String) : Option FlValue :=
  match v with
  | FlValue.map pairs => assoc_get pairs key
  | _ => none

/-- Model of `fl_value_lookup_int`. The source calls it like `fl_value_lookup_string` and
reads the result with `fl_value_get_int`; it is taken to return the value stored under `key`,
`none` (the null pointer) when the map has no such key. -/
def fl_value_lookup_int (v : FlValue) (key : String) : Option FlValue :=
  fl_value_lookup_string v key

/-- Model of `fl_value_lookup_bool`. The source calls it like `fl_value_lookup_string` and
reads the result with `fl_value_get_bool`; it is taken to return the value stored under `key`,
`none` (the null pointer) when the map has no such key. -/
def fl_value_lookup_bool (v : FlValue) (key : String) : Option FlValue :=
  fl_value_lookup_string v key

/-- Model of `fl_value_get_string`; `none` is the null pointer it returns for a value of
another type. -/
def fl_value_get_string : FlValue → Option String
  | FlValue.string s => some s
  | _ => none

/-- Model of `fl_value_get_int`, which returns 0 for a value of another type. -/
def fl_value_get_int : FlValue → Int
  | FlValue.int i => i
  | _ => 0

/-- Model of `fl_value_get_bool`, which returns false for a value of another type. -/
def fl_value_get_bool : FlValue → Bool
  | FlValue.bool b => b
  | _ => false

/-! ## Plugin state and its surroundings -/

/-- A `NotifyNotification*`. -/
abbrev Handle := Nat

/-- An `FlEventSink*`. -/
abbrev Sink := Nat

/-- A call made into libnotify / GObject. A `none` argument is a null `const gchar*`. -/
inductive OsCall where
  | notification_new (notification : Handle) (title body : Option String)
  | add_action (notification : Handle) (action_id action_title : Option String)
  | signal_connect (notification : Handle) (signal : String)
  | notification_show (notification : Handle)
  | notification_close (notification : Handle)
  deriving DecidableEq, Repr

/-- The map sent to the event sink by `on_notification_action`. -/
structure Event where
  type : String
  actionId : String
  notificationId : Option String
  deriving DecidableEq, Repr

/-- The fields of `struct _NotificationManagerPlugin` that the code reads or writes
(`duplicate_tracking` is never touched). -/
structure NotificationManagerPlugin where
  event_sink : Option Sink
  active_notifications : StdMap Handle
  scheduled_notifications : StdMap String
  deriving DecidableEq

/-- The plugin object together with what it acts on: the preference file, the calls made into
the notification service so far and the events handed to a sink so far (oldest first). -/
structure World where
  self : NotificationManagerPlugin
  pref_file : PrefFile
  os_calls : List OsCall
  sent_events : List (Sink × Event)
  deriving DecidableEq

/-- What one run of `show_notification` takes from outside: two clock readings, the pointer
returned by `notify_notification_new`, and the outcome of `notify_notification_show`. -/
structure ShowEnv where
  now_check : Int
  now_mark : Int
  notification : Handle
  success : Bool
  error : Bool

/-- State after `notification_manager_plugin_init` with no preference file on disk. -/
def World.initial : World :=
  { self := { event_sink := none, active_notifications := StdMap.empty,
              scheduled_notifications := StdMap.empty },
    pref_file := PrefFile.missing, os_calls := [], sent_events := [] }

/-! ## The method handlers -/

/-- The `notify_notification_add_action` calls of the loop at lines 256-275: one for every
element of the `actions` list that is a map with both an `id` and a `title`. -/
def action_calls (notification : Handle) (actions_value : Option FlValue) : List OsCall :=
  match actions_value with
  | some (FlValue.list items) =>
    items.filterMap (fun action_value =>
      if action_value.is_map then
        match fl_value_lookup_string action_value "id",
              fl_value_lookup_string action_value "title" with
        | some action_id_value, some action_title_value =>
          some (OsCall.add_action notification (fl_value_get_string action_id_value)
            (fl_value_get_string action_title_value))
        | _, _ => none
      else none)
  | _ => []

/-- Line 238 of `show_notification`: the `int time_window`, taken from `duplicateWindow` when
the request has one and 300 otherwise. -/
def duplicate_time_window (duplicate_window_value : Option FlValue) : Int :=
  int64_to_int
    (match duplicate_window_value with
     | some window_value => fl_value_get_int window_value
     | none => 300)

/-- Lines 235-247 of `show_notification`: `none` when the C++ has no defined result,
`some none` when the request is a duplicate, `some (some file)` with the preference file as
it stands when the code goes on to create the notification. -/
def show_duplicate_check (file : PrefFile) (env : ShowEnv)
    (duplicate_key_value duplicate_window_value : Option FlValue) : Option (Option PrefFile) :=
  match duplicate_key_value with
  | some key_value =>
    match fl_value_get_string key_value with
    | none => none
    | some duplicate_key =>
      let time_window := duplicate_time_window duplicate_window_value
      match is_duplicate_notification file env.now_check duplicate_key time_window with
      | none => none
      | some true => some none
      | some false => some (some (mark_notification_as_sent file env.now_mark duplicate_key))
  | none => some (some file)

/-- Model of `show_notification` (lines 210-293). -/
def show_notification (w : World) (env : ShowEnv) (args : FlValue) : Option (World × Bool) :=
  if !args.is_map then some (w, false)
  else
    let id_value := fl_value_lookup_string args "id"
    let title_value := fl_value_lookup_string args "title"
    let body_value := fl_value_lookup_string args "body"
    let actions_value := fl_value_lookup_string args "actions"
    let duplicate_key_value := fl_value_lookup_string args "duplicateKey"
    let duplicate_window_value := fl_value_lookup_int args "duplicateWindow"
    if id_value.isNone || title_value.isNone || body_value.isNone then some (w, false)
    else
      let id := id_value.bind fl_value_get_string
      let title := title_value.bind fl_value_get_string
      let body := body_value.bind fl_value_get_string
      match show_duplicate_check w.pref_file env duplicate_key_value duplicate_window_value with
      | none => none
      | some none => some (w, false)
      | some (some file) =>
        let notification := env.notification
        match id with
        | none => none
        | some id =>
          let calls : List OsCall :=
            [OsCall.notification_new notification title body]
              ++ action_calls notification actions_value
              ++ [OsCall.signal_connect notification "action-invoked",
                  OsCall.signal_connect notification "closed",
                  OsCall.notification_show notification]
          let w1 : World :=
            { self := { w.self with
                active_notifications := w.self.active_notifications.assign id notification },
              pref_file := file,
              os_calls := w.os_calls ++ calls,
              sent_events := w.sent_events }
          some (w1, if env.error then false else env.success)

/-- Model of `cancel_notification` (lines 295-319). -/
def cancel_notification (w : World) (args : FlValue) : Option (World × Bool) :=
  if !args.is_map then some (w, false)
  else
    match fl_value_lookup_string args "id" with
    | none => some (w, false)
    | some id_value =>
      match fl_value_get_string id_value with
      | none => none
      | some id =>
        match w.self.active_notifications.find id with
        | some notification =>
          some ({ w with
            self := { w.self with active_notifications := w.self.active_notifications.erase id },
            os_calls := w.os_calls ++ [OsCall.notification_close notification] }, true)
        | none => some (w, true)

/-- Model of `cancel_all_notifications` (lines 321-329). -/
def cancel_all_notifications (w : World) : World × Bool :=
  ({ w with
    self := { w.self with active_notifications := w.self.active_notifications.clear },
    os_calls := w.os_calls ++
      w.self.active_notifications.entries.map (fun pair => OsCall.notification_close pair.2) },
   true)

/-- Model of `is_duplicate_notification_method` (lines 349-370); `now` is the clock reading
taken inside `is_duplicate_notification`. The state is not touched. -/
def is_duplicate_notification_method (w : World) (now : Int) (args : FlValue) : Option Bool :=
  if !args.is_map then some false
  else
    match fl_value_lookup_string args "id", fl_value_lookup_int args "timeWindowSeconds" with
    | some id_value, some time_window_value =>
      match fl_value_get_string id_value with
      | none => none
      | some id =>
        let time_window_seconds := int64_to_int (fl_value_get_int time_window_value)
        is_duplicate_notification w.pref_file now id time_window_seconds
    | _, _ => some false

/-- Model of `clear_notification_history` (lines 372-382). -/
def clear_notification_history (w : World) : World × Bool :=
  ({ w with pref_file := PrefFile.missing }, true)

/-- Model of `schedule_notification` (lines 384-419). -/
def schedule_notification (w : World) (args : FlValue) : Option (World × Bool) :=
  if !args.is_map then some (w, false)
  else
    match fl_value_lookup_string args "id", fl_value_lookup_string args "request",
          fl_value_lookup_int args "scheduledDate" with
    | some id_value, some request_value, some _scheduled_date_value =>
      match fl_value_get_string id_value, fl_value_get_string request_value with
      | some id, some request_json =>
        let key := SCHEDULED_KEY_PREFIX ++ id
        let notification_data := request_json
        some ({ w with
          self := { w.self with
            scheduled_notifications := w.self.scheduled_notifications.assign id notification_data },
          pref_file := save_preferences w.pref_file key notification_data }, true)
      | _, _ => none
    | _, _, _ => some (w, false)

/-- Model of `get_scheduled_notifications` (lines 421-432): the `(id, data)` pairs of the
returned list, in order. -/
def get_scheduled_notifications (w : World) : List (String × String) :=
  w.self.scheduled_notifications.entries

/-- Model of `update_scheduled_notification` (lines 434-458). -/
def update_scheduled_notification (w : World) (args : FlValue) : Option (World × Bool) :=
  if !args.is_map then some (w, false)
  else
    match fl_value_lookup_string args "id" with
    | none => some (w, false)
    | some id_value =>
      match fl_value_get_string id_value with
      | none => none
      | some id =>
        let key := SCHEDULED_KEY_PREFIX ++ id
        let notification_data := "{}"
        some ({ w with
          self := { w.self with
            scheduled_notifications := w.self.scheduled_notifications.assign id notification_data },
          pref_file := save_preferences w.pref_file key notification_data }, true)

/-- Model of `cancel_scheduled_notification` (lines 460-503). -/
def cancel_scheduled_notification (w : World) (args : FlValue) : Option (World × Bool) :=
  if !args.is_map then some (w, false)
  else
    match fl_value_lookup_string args "id" with
    | none => some (w, false)
    | some id_value =>
      match fl_value_get_string id_value with
      | none => none
      | some id =>
        let key := SCHEDULED_KEY_PREFIX ++ id
        let file : PrefFile :=
          match w.pref_file with
          | PrefFile.object root_obj => PrefFile.object (json_object_remove_member root_obj key)
          | other => other
        some ({ w with
          self := { w.self with
            scheduled_notifications := w.self.scheduled_notifications.erase id },
          pref_file := file }, true)

/-- The loop at lines 521-527: every member name with the scheduled prefix is removed. -/
def remove_scheduled_members (root_obj : JsonObject) : JsonObject :=
  (json_object_get_members root_obj).foldl
    (fun obj key =>
      if g_str_has_prefix key SCHEDULED_KEY_PREFIX then json_object_remove_member obj key
      else obj)
    root_obj

/-- Model of `cancel_all_scheduled_notifications` (lines 505-540). -/
def cancel_all_scheduled_notifications (w : World) : World × Bool :=
  let file : PrefFile :=
    match w.pref_file with
    | PrefFile.object root_obj => PrefFile.object (remove_scheduled_members root_obj)
    | other => other
  ({ w with
    self := { w.self with scheduled_notifications := w.self.scheduled_notifications.clear },
    pref_file := file }, true)

/-! ## Callbacks -/

/-- Model of `on_notification_action` (lines 543-561). -/
def on_notification_action (w : World) (notification : Handle) (action : String) : World :=
  match w.self.event_sink with
  | some sink =>
    let event : Event :=
      { type := "action", actionId := action,
        notificationId :=
          (w.self.active_notifications.entries.find? (fun pair => pair.2 = notification)).map
            Prod.fst }
    { w with sent_events := w.sent_events ++ [(sink, event)] }
  | none => w

/-- Model of `on_notification_closed` (lines 564-574). -/
def on_notification_closed (w : World) (notification : Handle) : World :=
  { w with
    self := { w.self with
      active_notifications :=
        w.self.active_notifications.erase_first (fun h => h = notification) } }

/-- Model of `on_listen` (lines 577-581). -/
def on_listen (w : World) (events : Sink) : World :=
  { w with self := { w.self with event_sink := some events } }

/-- Model of `on_cancel` (lines 583-587). -/
def on_cancel (w : World) : World :=
  { w with self := { w.self with event_sink := none } }

/-! ## Method dispatch and runs of the plugin -/

/-- The value a method call is answered with. -/
inductive Response where
  | bool (b : Bool)
  | int (i : Int)
  | scheduled (items : List (String × String))
  | not_implemented
  deriving DecidableEq

/-- A handler's boolean result as a response. -/
def respond_bool (r : Option (World × Bool)) : Option (World × Response) :=
  r.map (fun p => (p.1, Response.bool p.2))

/-- Model of `notification_manager_plugin_handle_method_call` (lines 145-189). `env` holds what
the handler takes from outside; `isDuplicateNotification` reads the clock as `env.now_check`.
The state of libnotify that `initialize` touches is not part of the world. -/
def notification_manager_plugin_handle_method_call (w : World) (env : ShowEnv)
    (method : String) (args : FlValue) : Option (World × Response) :=
  if method = "initialize" then some (w, Response.bool true)
  else if method = "requestPermissions" then some (w, Response.bool true)
  else if method = "areNotificationsEnabled" then some (w, Response.bool true)
  else if method = "showNotification" then respond_bool (show_notification w env args)
  else if method = "scheduleNotification" then respond_bool (schedule_notification w args)
  else if method = "getScheduledNotifications" then
    some (w, Response.scheduled (get_scheduled_notifications w))
  else if method = "updateScheduledNotification" then
    respond_bool (update_scheduled_notification w args)
  else if method = "cancelNotification" then respond_bool (cancel_notification w args)
  else if method = "cancelScheduledNotification" then
    respond_bool (cancel_scheduled_notification w args)
  else if method = "cancelAllNotifications" then
    respond_bool (some (cancel_all_notifications w))
  else if method = "cancelAllScheduledNotifications" then
    respond_bool (some (cancel_all_scheduled_notifications w))
  else if method = "getBadgeCount" then some (w, Response.int 0)
  else if method = "setBadgeCount" then some (w, Response.bool true)
  else if method = "clearBadgeCount" then some (w, Response.bool true)
  else if method = "isDuplicateNotification" then
    (is_duplicate_notification_method w env.now_check args).map
      (fun b => (w, Response.bool b))
  else if method = "clearNotificationHistory" then
    respond_bool (some (clear_notification_history w))
  else some (w, Response.not_implemented)

/-- One thing that happens to the plugin: a method call from the application, a signal of a
notification, or the event channel being listened to or cancelled. -/
inductive Op where
  | method_call (env : ShowEnv) (method : String) (args : FlValue)
  | action_invoked (notification : Handle) (action : String)
  | closed (notification : Handle)
  | listen (events : Sink)
  | cancel_listen

/-- The world after one `Op`; `none` when the C++ has no defined result. -/
def step (w : World) : Op → Option World
  | Op.method_call env method args =>
    (notification_manager_plugin_handle_method_call w env method args).map Prod.fst
  | Op.action_invoked notification action => some (on_notification_action w notification action)
  | Op.closed notification => some (on_notification_closed w notification)
  | Op.listen events => some (on_listen w events)
  | Op.cancel_listen => some (on_cancel w)

/-- The world after a sequence of `Op`s, oldest first. -/
def run : World → List Op → Option World
  | w, [] => some w
  | w, op :: ops =>
    match step w op with
    | none => none
    | some w1 => run w1 ops

/-- Whether the `Op` is a call of `clearNotificationHistory`. -/
def Op.clears_history : Op → Bool
  | Op.method_call _ method _ => decide (method = "clearNotificationHistory")
  | _ => false

/-- The clock reading `mark_notification_as_sent` would take during the `Op`. -/
def Op.mark_clock : Op → Int
  | Op.method_call env _ _ => env.now_mark
  | _ => 0

/-- The event sink after the `Op`, given the sink before it. -/
def Op.next_sink : Op → Option Sink → Option Sink
  | Op.listen events, _ => some events
  | Op.cancel_listen, _ => none
  | _, sink => sink

/-- The sink set by the most recent `on_listen` of a sequence of `Op`s that no `on_cancel`
followed, starting from `sink`. -/
def last_sink (sink : Option Sink) (ops : List Op) : Option Sink :=
  ops.foldl (fun s op => op.next_sink s) sink

/-- Every entry `(id, data)` of the in-memory scheduled map has its record in the preference
file: the root object has the member `scheduled_notification_<id>` with the string `data`. -/
def scheduled_mirrored (w : World) : Prop :=
  ∀ id data, w.self.scheduled_notifications.find id = some data →
    ∃ root_obj, w.pref_file = PrefFile.object root_obj ∧
      json_object_get_member root_obj (SCHEDULED_KEY_PREFIX ++ id) =
        some (JsonNode.string data)

/-- The preference file after `cancel_scheduled_notification` of `id` (lines 479-499). -/
def file_without_scheduled (file : PrefFile) (id : String) : PrefFile :=
  match file with
  | PrefFile.object root_obj =>
    PrefFile.object (json_object_remove_member root_obj (SCHEDULED_KEY_PREFIX ++ id))
  | other => other

/-- The preference file after `cancel_all_scheduled_notifications` (lines 509-536). -/
def file_without_all_scheduled (file : PrefFile) : PrefFile :=
  match file with
  | PrefFile.object root_obj => PrefFile.object (remove_scheduled_members root_obj)
  | other => other

/-- What one `Op` can do to the scheduled map and the preference file, from `w` to `w1`:
nothing; write the duplicate record of a non-empty key with the text of the clock reading
`now`; store a scheduled entry in both; drop a scheduled entry from both; drop all of them
from both; or, when `clears` holds, delete the file. -/
inductive StoreEffect (clears : Bool) (now : Int) (w w1 : World) : Prop where
  | same (hmap : w1.self.scheduled_notifications = w.self.scheduled_notifications)
      (hfile : w1.pref_file = w.pref_file)
  | marked (k : String) (hk : k ≠ "")
      (hmap : w1.self.scheduled_notifications = w.self.scheduled_notifications)
      (hfile : w1.pref_file =
        save_preferences w.pref_file (DUPLICATE_KEY_PREFIX ++ k) (to_string now))
  | stored (id data : String)
      (hmap : w1.self.scheduled_notifications = w.self.scheduled_notifications.assign id data)
      (hfile : w1.pref_file =
        save_preferences w.pref_file (SCHEDULED_KEY_PREFIX ++ id) data)
  | dropped (id : String)
      (hmap : w1.self.scheduled_notifications = w.self.scheduled_notifications.erase id)
      (hfile : w1.pref_file = file_without_scheduled w.pref_file id)
  | dropped_all
      (hmap : w1.self.scheduled_notifications = w.self.scheduled_notifications.clear)
      (hfile : w1.pref_file = file_without_all_scheduled w.pref_file)
  | cleared (hclears : clears = true)
      (hmap : w1.self.scheduled_notifications = w.self.scheduled_notifications)
      (hfile : w1.pref_file = PrefFile.missing)

/-- A member of the preference file is either a scheduled record, written by
`schedule_notification` or `update_scheduled_notification`, or the duplicate record of a
non-empty key holding the text of one of the clock readings `clocks`, as
`mark_notification_as_sent` writes it. -/
def record_wellformed (clocks : List Int) (m : String × JsonNode) : Prop :=
  (∃ id data, m = (SCHEDULED_KEY_PREFIX ++ id, JsonNode.string data)) ∨
  (∃ k T, k ≠ "" ∧ T ∈ clocks ∧ m = (DUPLICATE_KEY_PREFIX ++ k, JsonNode.string (to_string T)))

/-- The preference file is absent, or an object all of whose members are well formed. -/
def store_wellformed (clocks : List Int) (file : PrefFile) : Prop :=
  file = PrefFile.missing ∨
  ∃ root_obj, file = PrefFile.object root_obj ∧
    ∀ m ∈ root_obj.members, record_wellformed clocks m

/-- Whether the clock reading of the `Op` fits a `long long`, as every reading of
`system_clock` in seconds does. -/
def Op.clock_fits (op : Op) : Bool :=
  decide (INT64_MIN ≤ op.mark_clock ∧ op.mark_clock ≤ INT64_MAX)

/-- Smallest value of `int`. -/
def INT_MIN : Int := -2147483648

/-- Largest value of `int`. -/
def INT_MAX : Int := 2147483647

/-- The request `args` has `id_value` under `id`, some `title` and `body`, the string `k` under
`duplicateKey` and the integer `window` under `duplicateWindow`. -/
def is_dedup_request (args id_value : FlValue) (k : String) (window : Int) : Prop :=
  fl_value_lookup_string args "id" = some id_value ∧
  (∃ title_value, fl_value_lookup_string args "title" = some title_value) ∧
  (∃ body_value, fl_value_lookup_string args "body" = some body_value) ∧
  fl_value_lookup_string args "duplicateKey" = some (FlValue.string k) ∧
  fl_value_lookup_int args "duplicateWindow" = some (FlValue.int window)

/-- The world `show_notification` leaves once it has gone past the duplicate check with the
preference file `file`, for a request whose id is the string `id`. -/
def shown_world (w : World) (env : ShowEnv) (args : FlValue) (file : PrefFile) (id : String) :
    World :=
  { self := { w.self with
      active_notifications := w.self.active_notifications.assign id env.notification },
    pref_file := file,
    os_calls := w.os_calls ++
      ([OsCall.notification_new env.notification
          ((fl_value_lookup_string args "title").bind fl_value_get_string)
          ((fl_value_lookup_string args "body").bind fl_value_get_string)]
        ++ action_calls env.notification (fl_value_lookup_string args "actions")
        ++ [OsCall.signal_connect env.notification "action-invoked",
            OsCall.signal_connect env.notification "closed",
            OsCall.notification_show env.notification]),
    sent_events := w.sent_events }

/-! ## Example inputs -/

/-- A `showNotification` request with title `T`, body `B`, the dedup key `promoX` and the given
id and window. -/
def promo_args (id : String) (window : Int) : FlValue :=
  FlValue.map
    [("id", FlValue.string id), ("title", FlValue.string "T"), ("body", FlValue.string "B"),
     ("duplicateKey", FlValue.string "promoX"), ("duplicateWindow", FlValue.int window)]

/-- A `showNotification` request with the given id, title `T`, body `B` and no dedup key. -/
def plain_args (id : String) : FlValue :=
  FlValue.map
    [("id", FlValue.string id), ("title", FlValue.string "T"), ("body", FlValue.string "B")]

/-- A request that carries only an id (`cancelNotification`, `cancelScheduledNotification`). -/
def id_args (id : String) : FlValue := FlValue.map [("id", FlValue.string id)]

/-- The request blob of the specification's scheduling scenario: an object with `x` set
to 1. -/
def x1_blob : String := "\x7b\"x\":1\x7d"

/-- A `scheduleNotification` request with the given id and request blob, due at second 4600. -/
def schedule_args (id data : String) : FlValue :=
  FlValue.map
    [("id", FlValue.string id), ("request", FlValue.string data),
     ("scheduledDate", FlValue.int 4600)]

/-- Surroundings of a show at clock reading `now` whose render succeeds on the handle
`notification`. -/
def render_ok (now : Int) (notification : Handle) : ShowEnv :=
  { now_check := now, now_mark := now, notification := notification, success := true,
    error := false }

/-- Surroundings of a show at clock reading `now` whose render reports an error. -/
def render_error (now : Int) (notification : Handle) : ShowEnv :=
  { now_check := now, now_mark := now, notification := notification, success := false,
    error := true }

/-- The world after a first, rendered show of `promo_args "n1" window` at second 1000 on the
initial world, on handle 1. -/
def promo_shown_world (window : Int) : World :=
  shown_world World.initial (render_ok 1000 1) (promo_args "n1" window)
    (mark_notification_as_sent PrefFile.missing 1000 "promoX") "n1"

/-- The world after a rendered show of `plain_args id` on handle `notification`. -/
def plain_shown_world (w : World) (id : String) (notification : Handle) : World :=
  shown_world w (render_ok 1000 notification) (plain_args id) w.pref_file id

/-- A world whose registry holds the id `n1` on handle 1 and nothing else. -/
def one_active_world : World := plain_shown_world World.initial "n1" 1

/-- A root object with a plain key, a scheduled record and a duplicate record. -/
def mixed_root : JsonObject :=
  ⟨[("foo", JsonNode.string "bar"), ("scheduled_notification_s1", JsonNode.string "{}"),
    ("notification_duplicate_promoX", JsonNode.string "1000")], by decide⟩

/-- The root object `mixed_root` without its scheduled record. -/
def mixed_root_kept : JsonObject :=
  ⟨[("foo", JsonNode.string "bar"), ("notification_duplicate_promoX", JsonNode.string "1000")],
    by decide⟩

/-- A world that has `s1` scheduled in memory and `mixed_root` on disk. -/
def mixed_world : World :=
  { World.initial with
    self := { World.initial.self with
      scheduled_notifications := StdMap.empty.assign "s1" "{}" },
    pref_file := PrefFile.object mixed_root }

/-- The initial world with `promoX` marked as sent at second 1000. -/
def promo_marked_world : World :=
  { World.initial with
    pref_file := mark_notification_as_sent PrefFile.missing 1000 "promoX" }

/-- A run with a scheduled entry and a duplicate mark: schedule `s1`, show `promoX`, update
`s2`, cancel the scheduled `s2`, schedule `s3`. -/
def mirrored_ops : List Op :=
  [Op.method_call (render_ok 1000 1) "scheduleNotification" (schedule_args "s1" x1_blob),
   Op.method_call (render_ok 1000 1) "showNotification" (promo_args "n1" 60),
   Op.method_call (render_ok 1001 2) "updateScheduledNotification" (id_args "s2"),
   Op.method_call (render_ok 1002 2) "cancelScheduledNotification" (id_args "s2"),
   Op.method_call (render_ok 1003 2) "scheduleNotification" (schedule_args "s3" x1_blob)]

/-- A run that schedules `s1` and then clears the notification history. -/
def schedule_then_clear_ops : List Op :=
  [Op.method_call (render_ok 1000 1) "scheduleNotification" (schedule_args "s1" x1_blob),
   Op.method_call (render_ok 1001 1) "clearNotificationHistory" FlValue.null]

/-- A run that listens on sink 5 and then shows `n1` on handle 1. -/
def listen_show_ops : List Op :=
  [Op.listen 5, Op.method_call (render_ok 1000 1) "showNotification" (plain_args "n1")]

/-- The world after `listen_show_ops`. -/
def listening_world : World := plain_shown_world (on_listen World.initial 5) "n1" 1

/-- A world that has `s1` scheduled with `x1_blob`, in memory and on disk. -/
def scheduled_world : World :=
  { World.initial with
    self := { World.initial.self with
      scheduled_notifications := StdMap.empty.assign "s1" x1_blob },
    pref_file := save_preferences PrefFile.missing "scheduled_notification_s1" x1_blob }

/-- The world after `n1` was shown on handle 1 and then on handle 2: the registry holds
`n1` on handle 2. -/
def superseded_world : World := plain_shown_world one_active_world "n1" 2

/-- A run with two marks and a scheduled entry in between: show `promoX` at second 1000,
schedule `s1`, show `promoX` again at second 1061. -/
def two_marks_ops : List Op :=
  [Op.method_call (render_ok 1000 1) "showNotification" (promo_args "n1" 60),
   Op.method_call (render_ok 1001 1) "scheduleNotification" (schedule_args "s1" x1_blob),
   Op.method_call (render_ok 1061 2) "showNotification" (promo_args "n2" 60)]

/-- A `scheduleNotification` request with the given id and request blob, due at second 9999
and repeating every 60 seconds. -/
def repeating_schedule_args (id data : String) : FlValue :=
  FlValue.map
    [("id", FlValue.string id), ("request", FlValue.string data),
     ("scheduledDate", FlValue.int 9999), ("isRepeating", FlValue.bool true),
     ("repeatInterval", FlValue.int 60)]

/-- An `updateScheduledNotification` request for `id` that carries a request blob as well. -/
def update_args_with_payload (id data : String) : FlValue :=
  FlValue.map [("id", FlValue.string id), ("request", FlValue.string data)]

/-! ## Decimal text: `std::stoll` reads back what `std::to_string` writes -/

theorem digit_char_spec (d : Nat) (h : d < 10) :
    (digit_char d).isDigit = true ∧ (digit_char d).toNat - 48 = d := by
  interval_cases d <;> decide

theorem nat_digits_fuel_ne_nil (fuel n : Nat) (h : n < fuel) : nat_digits_fuel fuel n ≠ [] := by
  cases fuel with
  | zero => omega
  | succ f =>
    unfold nat_digits_fuel
    split <;> simp

theorem nat_digits_fuel_all_digits (fuel : Nat) :
    ∀ n c, c ∈ nat_digits_fuel fuel n → c.isDigit = true := by
  induction fuel with
  | zero => intro n c hc; simp [nat_digits_fuel] at hc
  | succ f ih =>
    intro n c hc
    unfold nat_digits_fuel at hc
    split at hc
    · next hlt =>
      rw [List.mem_singleton] at hc
      rw [hc]; exact (digit_char_spec n hlt).1
    · rcases List.mem_append.1 hc with h | h
      · exact ih _ c h
      · rw [List.mem_singleton] at h
        rw [h]; exact (digit_char_spec _ (Nat.mod_lt _ (by decide))).1

theorem digits_value_snoc (ds : List Char) (c : Char) :
    digits_value (ds ++ [c]) = digits_value ds * 10 + (c.toNat - 48) := by
  simp [digits_value, List.foldl_append]

theorem digits_value_nat_digits_fuel (fuel : Nat) :
    ∀ n, n < fuel → digits_value (nat_digits_fuel fuel n) = n := by
  induction fuel with
  | zero => intro n h; omega
  | succ f ih =>
    intro n h
    unfold nat_digits_fuel
    split
    · next hlt => simp [digits_value, (digit_char_spec n hlt).2]
    · next hge =>
      rw [digits_value_snoc, ih (n / 10) (by omega),
        (digit_char_spec _ (Nat.mod_lt _ (by decide))).2]
      omega

theorem takeWhile_all {α : Type} (p : α → Bool) (l : List α) (h : ∀ a ∈ l, p a = true) :
    l.takeWhile p = l := by
  induction l with
  | nil => rfl
  | cons a rest ih =>
    rw [List.takeWhile_cons, h a (List.mem_cons_self _ _),
      ih (fun b hb => h b (List.mem_cons_of_mem _ hb))]
    rfl

theorem digit_not_space_or_sign (c : Char) (h : c.isDigit = true) :
    isspace c = false ∧ c ≠ '-' ∧ c ≠ '+' := by
  refine ⟨?_, ?_, ?_⟩
  · simp only [Char.isDigit, Bool.and_eq_true, decide_eq_true_eq] at h
    have h1 : 48 ≤ c.toNat := h.1
    simp only [isspace, Bool.or_eq_false_iff, decide_eq_false_iff_not, Bool.and_eq_false_iff]
    omega
  · intro e; rw [e] at h; exact absurd h (by decide)
  · intro e; rw [e] at h; exact absurd h (by decide)

theorem stoll_sign_digit (c : Char) (rest : List Char) (hm : c ≠ '-') (hp : c ≠ '+') :
    stoll_sign (c :: rest) = (false, c :: rest) := by
  unfold stoll_sign
  split
  · next heq => simp at heq; exact absurd heq.1 hm
  · next heq => simp at heq; exact absurd heq.1 hp
  · rfl

/-- A non-empty run of digits is read by `stoll` as its value, when that fits. -/
theorem stoll_digits (ds : List Char) (hne : ds ≠ []) (hd : ∀ c ∈ ds, c.isDigit = true)
    (hmax : (digits_value ds : Int) ≤ INT64_MAX) :
    stoll ⟨ds⟩ = some (digits_value ds : Int) := by
  have hmin : INT64_MIN ≤ (digits_value ds : Int) :=
    le_trans (by decide) (Int.ofNat_nonneg _)
  obtain ⟨c, rest, rfl⟩ := List.exists_cons_of_ne_nil hne
  obtain ⟨hs, hm, hp⟩ := digit_not_space_or_sign c (hd c (List.mem_cons_self _ _))
  have h1 : List.dropWhile isspace (c :: rest) = c :: rest := by
    rw [List.dropWhile_cons, hs]; rfl
  unfold stoll
  simp only [h1, stoll_sign_digit c rest hm hp, takeWhile_all _ _ hd]
  simp [stoll_value, hmin, hmax]

/-- A minus sign followed by a non-empty run of digits is read by `stoll` as the negated
value, when that fits. -/
theorem stoll_neg_digits (ds : List Char) (hne : ds ≠ []) (hd : ∀ c ∈ ds, c.isDigit = true)
    (hmin : INT64_MIN ≤ -(digits_value ds : Int)) :
    stoll ⟨'-' :: ds⟩ = some (-(digits_value ds : Int)) := by
  have hmax : -(digits_value ds : Int) ≤ INT64_MAX :=
    le_trans (neg_nonpos.2 (Int.ofNat_nonneg _)) (by decide)
  have h1 : List.dropWhile isspace ('-' :: ds) = '-' :: ds := by
    rw [List.dropWhile_cons]; rfl
  have h2 : stoll_sign ('-' :: ds) = (true, ds) := rfl
  unfold stoll
  simp only [h1, h2, takeWhile_all _ _ hd]
  simp [stoll_value, hne, hmin, hmax]

/-- The text `std::to_string` writes for a `long long` is read back by `std::stoll`. -/
theorem stoll_to_string (v : Int) (hmin : INT64_MIN ≤ v) (hmax : v ≤ INT64_MAX) :
    stoll (to_string v) = some v := by
  cases v with
  | ofNat n =>
    have hv : digits_value (nat_digits n) = n :=
      digits_value_nat_digits_fuel (n + 1) n (Nat.lt_succ_self n)
    have h := stoll_digits (nat_digits n) (nat_digits_fuel_ne_nil _ _ (Nat.lt_succ_self n))
      (fun c hc => nat_digits_fuel_all_digits _ _ c hc) (by rw [hv]; exact hmax)
    rw [hv] at h
    exact h
  | negSucc n =>
    have hv : digits_value (nat_digits (n + 1)) = n + 1 :=
      digits_value_nat_digits_fuel (n + 1 + 1) (n + 1) (Nat.lt_succ_self _)
    have h := stoll_neg_digits (nat_digits (n + 1))
      (nat_digits_fuel_ne_nil _ _ (Nat.lt_succ_self _))
      (fun c hc => nat_digits_fuel_all_digits _ _ c hc)
      (by rw [hv]; rw [Int.negSucc_eq] at hmin; exact_mod_cast hmin)
    rw [hv] at h
    rw [Int.negSucc_eq]
    exact_mod_cast h

theorem to_string_ne_empty (v : Int) : to_string v ≠ "" := by
  intro h
  have hd : (to_string v).data = [] := by rw [h]
  cases v with
  | ofNat n => exact nat_digits_fuel_ne_nil _ _ (Nat.lt_succ_self n) hd
  | negSucc n => simp [to_string] at hd

/-! ## Looking up after an update -/

theorem assoc_get_set_tail_same {V : Type} (l : List (String × V)) (key : String) (v : V) :
    assoc_get (assoc_set_tail l key v) key = some v := by
  induction l with
  | nil => simp [assoc_set_tail, assoc_get]
  | cons p rest ih =>
    obtain ⟨a, x⟩ := p
    by_cases h : a = key
    · simp [assoc_set_tail, assoc_get, h]
    · simp [assoc_set_tail, assoc_get, h, ih]

theorem assoc_get_set_sorted_same {V : Type} (l : List (String × V)) (key : String) (v : V) :
    assoc_get (assoc_set_sorted l key v) key = some v := by
  induction l with
  | nil => simp [assoc_set_sorted, assoc_get]
  | cons p rest ih =>
    obtain ⟨a, x⟩ := p
    unfold assoc_set_sorted
    split
    · simp [assoc_get]
    · split
      · next h => simp [assoc_get, h]
      · next h => simp [assoc_get, h, ih]

theorem assoc_get_set_sorted_other {V : Type} (l : List (String × V)) (key other : String)
    (v : V) (hne : other ≠ key) :
    assoc_get (assoc_set_sorted l key v) other = assoc_get l other := by
  have hne2 : ¬ key = other := fun e => hne e.symm
  induction l with
  | nil => simp [assoc_set_sorted, assoc_get, hne2]
  | cons p rest ih =>
    obtain ⟨a, x⟩ := p
    unfold assoc_set_sorted
    split
    · simp [assoc_get, hne2]
    · split
      · next h =>
        have h3 : ¬ a = other := fun e => hne2 (h ▸ e)
        simp [assoc_get, h3]
      · next h => simp [assoc_get, ih]

theorem assoc_erase_cons_same {V : Type} (rest : List (String × V)) (key : String) (x : V) :
    assoc_erase ((key, x) :: rest) key = assoc_erase rest key := by
  simp [assoc_erase]

theorem assoc_erase_cons_other {V : Type} (rest : List (String × V)) (a key : String) (x : V)
    (h : a ≠ key) : assoc_erase ((a, x) :: rest) key = (a, x) :: assoc_erase rest key := by
  simp [assoc_erase, h]

theorem assoc_get_erase_same {V : Type} (l : List (String × V)) (key : String) :
    assoc_get (assoc_erase l key) key = none := by
  induction l with
  | nil => rfl
  | cons p rest ih =>
    obtain ⟨a, x⟩ := p
    by_cases h : a = key
    · subst h; rw [assoc_erase_cons_same]; exact ih
    · rw [assoc_erase_cons_other rest a key x h]
      simp [assoc_get, h, ih]

theorem assoc_get_erase_other {V : Type} (l : List (String × V)) (key other : String)
    (hne : other ≠ key) : assoc_get (assoc_erase l key) other = assoc_get l other := by
  induction l with
  | nil => rfl
  | cons p rest ih =>
    obtain ⟨a, x⟩ := p
    by_cases h : a = key
    · subst h
      rw [assoc_erase_cons_same, ih]
      simp [assoc_get, hne.symm]
    · rw [assoc_erase_cons_other rest a key x h]
      simp [assoc_get, ih]

theorem assoc_get_none_iff {V : Type} (l : List (String × V)) (key : String) :
    assoc_get l key = none ↔ ∀ p ∈ l, p.1 ≠ key := by
  induction l with
  | nil => simp [assoc_get]
  | cons p rest ih =>
    obtain ⟨a, x⟩ := p
    by_cases h : a = key
    · simp [assoc_get, h]
    · simp [assoc_get, h, ih]

theorem assoc_erase_absent {V : Type} (l : List (String × V)) (key : String)
    (h : assoc_get l key = none) : assoc_erase l key = l := by
  rw [assoc_get_none_iff] at h
  unfold assoc_erase
  rw [List.filter_eq_self]
  intro p hp
  simpa using h p hp

/-- In a list with strictly ascending keys, the entries under `key` are the one pair that
`assoc_get` finds. -/
theorem assoc_filter_key {V : Type} (l : List (String × V)) (key : String)
    (h : l.Pairwise (fun p q => string_lt p.1 q.1 = true)) :
    l.filter (fun p => decide (p.1 = key)) =
      match assoc_get l key with
      | some v => [(key, v)]
      | none => [] := by
  induction l with
  | nil => rfl
  | cons p rest ih =>
    obtain ⟨a, x⟩ := p
    rw [List.pairwise_cons] at h
    by_cases hk : a = key
    · subst hk
      have hrest : rest.filter (fun p => decide (p.1 = a)) = [] := by
        rw [List.filter_eq_nil_iff]
        intro p hp
        have := h.1 p hp
        simpa using (string_lt_ne _ _ this).symm
      simp [assoc_get, hrest]
    · simp [assoc_get, hk, ih h.2]

/-! ## `std::map` lookups -/

theorem StdMap.ext_entries {V : Type} (a b : StdMap V) (h : a.entries = b.entries) : a = b := by
  cases a; cases b; simp only [StdMap.mk.injEq]; exact h

theorem StdMap.find_assign_same {V : Type} (m : StdMap V) (key : String) (v : V) :
    (m.assign key v).find key = some v :=
  assoc_get_set_sorted_same m.entries key v

theorem StdMap.find_assign_other {V : Type} (m : StdMap V) (key other : String) (v : V)
    (hne : other ≠ key) : (m.assign key v).find other = m.find other :=
  assoc_get_set_sorted_other m.entries key other v hne

theorem StdMap.find_erase_same {V : Type} (m : StdMap V) (key : String) :
    (m.erase key).find key = none :=
  assoc_get_erase_same m.entries key

theorem StdMap.find_erase_other {V : Type} (m : StdMap V) (key other : String)
    (hne : other ≠ key) : (m.erase key).find other = m.find other :=
  assoc_get_erase_other m.entries key other hne

theorem StdMap.erase_absent {V : Type} (m : StdMap V) (key : String)
    (h : m.find key = none) : m.erase key = m :=
  StdMap.ext_entries _ _ (assoc_erase_absent m.entries key h)

/-- The entries of a `std::map` under `key`: the one pair that `find` reaches, or none. -/
theorem StdMap.entries_of_key {V : Type} (m : StdMap V) (key : String) :
    m.entries.filter (fun e => decide (e.1 = key)) =
      match m.find key with
      | some v => [(key, v)]
      | none => [] :=
  assoc_filter_key m.entries key m.ascending

/-! ## The preference store -/

theorem assoc_set_tail_absent {V : Type} (l : List (String × V)) (key : String) (v : V)
    (h : key ∉ l.map Prod.fst) : assoc_set_tail l key v = l ++ [(key, v)] := by
  induction l with
  | nil => rfl
  | cons p rest ih =>
    obtain ⟨a, x⟩ := p
    simp only [List.map_cons, List.mem_cons, not_or] at h
    have hne : ¬ a = key := fun e => h.1 e.symm
    simp [assoc_set_tail, hne, ih h.2]

/-- Setting the members of a list with distinct names one after the other, onto members under
other names, appends the list. -/
theorem copy_members_append (l : List (String × JsonNode)) :
    ∀ acc : JsonObject, (l.map Prod.fst).Nodup →
      (∀ name ∈ l.map Prod.fst, name ∉ acc.members.map Prod.fst) →
      (l.foldl (fun o m => json_object_set_member o m.1 m.2) acc).members =
        acc.members ++ l := by
  induction l with
  | nil => intro acc _ _; simp
  | cons p rest ih =>
    intro acc hnd hdisj
    obtain ⟨a, x⟩ := p
    rw [List.map_cons, List.nodup_cons] at hnd
    have ha : a ∉ acc.members.map Prod.fst := hdisj a (List.mem_cons_self _ _)
    have hset : (json_object_set_member acc a x).members = acc.members ++ [(a, x)] :=
      assoc_set_tail_absent acc.members a x ha
    rw [List.foldl_cons, ih (json_object_set_member acc a x) hnd.2, hset]
    · simp
    · intro name hname
      rw [hset]
      simp only [List.map_append, List.map_cons, List.map_nil, List.mem_append,
        List.mem_singleton, not_or]
      refine ⟨hdisj name (List.mem_cons_of_mem _ hname), ?_⟩
      intro e
      exact hnd.1 (e ▸ hname)

/-- The copy loop of `save_preferences` rebuilds the existing root object, so the file written
is the existing object with the new string member set. -/
theorem save_preferences_object (root_obj : JsonObject) (key value : String) :
    save_preferences (PrefFile.object root_obj) key value =
      PrefFile.object (json_object_set_member root_obj key (JsonNode.string value)) := by
  have hcopy : root_obj.members.foldl (fun o m => json_object_set_member o m.1 m.2)
      json_object_new = root_obj := by
    have h := copy_members_append root_obj.members json_object_new root_obj.distinct
      (by intro name _; simp [json_object_new])
    cases hr : root_obj.members.foldl (fun o m => json_object_set_member o m.1 m.2)
      json_object_new with
    | mk ms hd =>
      rw [hr] at h
      cases root_obj with
      | mk ms0 hd0 =>
        simp only [json_object_new, List.nil_append] at h
        simp only [JsonObject.mk.injEq]
        exact h
  simp only [save_preferences, hcopy]

theorem load_preference_save_same (file : PrefFile) (key value : String) :
    load_preference (save_preferences file key value) key = value := by
  simp [load_preference, save_preferences, json_object_get_string_member,
    json_object_get_member, json_object_set_member, assoc_get_set_tail_same]

theorem load_preference_mark (file : PrefFile) (now : Int) (k : String) (hk : k ≠ "") :
    load_preference (mark_notification_as_sent file now k) (DUPLICATE_KEY_PREFIX ++ k) =
      to_string now := by
  simp [mark_notification_as_sent, hk, load_preference_save_same]

/-- What `is_duplicate_notification` answers when the record of a non-empty key holds the
text of a timestamp `T`. -/
theorem is_duplicate_of_record (file : PrefFile) (k : String) (w T t : Int) (hk : k ≠ "")
    (hmin : INT64_MIN ≤ T) (hmax : T ≤ INT64_MAX)
    (hrec : load_preference file (DUPLICATE_KEY_PREFIX ++ k) = to_string T) :
    is_duplicate_notification file t k w = some (decide (t - T < w)) := by
  simp [is_duplicate_notification, hk, hrec, to_string_ne_empty, stoll_to_string T hmin hmax]

/-- With no text under the key's record, nothing is a duplicate. -/
theorem is_duplicate_of_no_record (file : PrefFile) (k : String) (w t : Int)
    (hrec : load_preference file (DUPLICATE_KEY_PREFIX ++ k) = "") :
    is_duplicate_notification file t k w = some false := by
  simp [is_duplicate_notification, hrec]

/-! ## C1: the duplicate window -/

/-- C1. Time is integer epoch seconds. Let `k` be a non-empty key, `w` any window and `T ≤ t`
two clock readings, `T` a `long long`. If `mark_notification_as_sent(k)` ran at `T` and the
record of `k` in the present file `file1` still holds what that run wrote, then
`is_duplicate_notification(k, w)` at time `t` returns true exactly when `t - T < w`: it is true
throughout `[T, T + w)` and false at and after `T + w`. -/
theorem C1_duplicate_iff_within_window (file file1 : PrefFile) (k : String) (w T t : Int)
    (hk : k ≠ "") (hmin : INT64_MIN ≤ T) (hmax : T ≤ INT64_MAX) (_hle : T ≤ t)
    (hkept : load_preference file1 (DUPLICATE_KEY_PREFIX ++ k) =
      load_preference (mark_notification_as_sent file T k) (DUPLICATE_KEY_PREFIX ++ k)) :
    is_duplicate_notification file1 t k w = some (decide (t - T < w)) ∧
    (t < T + w → is_duplicate_notification file1 t k w = some true) ∧
    (T + w ≤ t → is_duplicate_notification file1 t k w = some false) := by
  rw [load_preference_mark file T k hk] at hkept
  have h := is_duplicate_of_record file1 k w T t hk hmin hmax hkept
  refine ⟨h, ?_, ?_⟩
  · intro hlt
    rw [h]
    have : t - T < w := by omega
    simp [this]
  · intro hge
    rw [h]
    have : ¬ t - T < w := by omega
    simp [this]

/-- C1 at a concrete input: key `promoX` marked at second 1000 in an absent file, asked at
second 1030 with a window of 60 seconds. -/
theorem C1_duplicate_iff_within_window_witness :
    "promoX" ≠ "" ∧ INT64_MIN ≤ (1000 : Int) ∧ (1000 : Int) ≤ INT64_MAX ∧
    (1000 : Int) ≤ 1030 ∧
    is_duplicate_notification (mark_notification_as_sent PrefFile.missing 1000 "promoX") 1030
      "promoX" 60 = some true :=
  ⟨by decide, by decide, by decide, by decide,
   (C1_duplicate_iff_within_window PrefFile.missing
      (mark_notification_as_sent PrefFile.missing 1000 "promoX") "promoX" 60 1000 1030
      (by decide) (by decide) (by decide) (by decide) rfl).2.1 (by decide)⟩

/-! ## `show_notification` -/

theorem is_map_of_lookup (args : FlValue) (key : String) (v : FlValue)
    (h : fl_value_lookup_string args key = some v) : args.is_map = true := by
  cases args <;> simp [fl_value_lookup_string] at h
  rfl

theorem show_notification_not_map (w : World) (env : ShowEnv) (args : FlValue)
    (h : args.is_map = false) : show_notification w env args = some (w, false) := by
  simp [show_notification, h]

theorem show_notification_missing_field (w : World) (env : ShowEnv) (args : FlValue)
    (h : fl_value_lookup_string args "id" = none ∨ fl_value_lookup_string args "title" = none ∨
      fl_value_lookup_string args "body" = none) :
    show_notification w env args = some (w, false) := by
  unfold show_notification
  split
  · rfl
  · rcases h with h | h | h <;> simp [h]

/-- The three outcomes of `show_notification` for a request that has `id`, `title` and
`body`. -/
theorem show_notification_valid (w : World) (env : ShowEnv) (args id_value title_value
    body_value : FlValue) (hid : fl_value_lookup_string args "id" = some id_value)
    (htitle : fl_value_lookup_string args "title" = some title_value)
    (hbody : fl_value_lookup_string args "body" = some body_value) :
    show_notification w env args =
      match show_duplicate_check w.pref_file env (fl_value_lookup_string args "duplicateKey")
          (fl_value_lookup_int args "duplicateWindow") with
      | none => none
      | some none => some (w, false)
      | some (some file) =>
        match fl_value_get_string id_value with
        | none => none
        | some id =>
          some (shown_world w env args file id, if env.error then false else env.success) := by
  have hmap := is_map_of_lookup args "id" id_value hid
  unfold show_notification shown_world
  simp only [hmap, hid, htitle, hbody, Bool.not_true, Bool.false_eq_true, if_false,
    Option.isNone_some, Bool.or_self, Option.bind_some]
  rfl

/-! ## C3: a duplicate show changes nothing -/

/-- C3. For every state and every `show_notification` request that has `id`, `title` and
`body` and carries a `duplicateKey` that `is_duplicate_notification` judges a duplicate for the
request's window, the call returns false and leaves the whole world as it was: the registry,
the scheduled map, the event sink, the preference file (with the timestamp recorded for that
key), the events sent, and the calls made into the notification service (none is added, so
no notification is created or shown). -/
theorem C3_duplicate_show_is_noop (w : World) (env : ShowEnv)
    (args id_value title_value body_value : FlValue) (k : String)
    (hid : fl_value_lookup_string args "id" = some id_value)
    (htitle : fl_value_lookup_string args "title" = some title_value)
    (hbody : fl_value_lookup_string args "body" = some body_value)
    (hkey : fl_value_lookup_string args "duplicateKey" = some (FlValue.string k))
    (hdup : is_duplicate_notification w.pref_file env.now_check k
      (duplicate_time_window (fl_value_lookup_int args "duplicateWindow")) = some true) :
    show_notification w env args = some (w, false) := by
  rw [show_notification_valid w env args id_value title_value body_value hid htitle hbody]
  simp [show_duplicate_check, hkey, fl_value_get_string, hdup]

/-- C3 at a concrete input: `promoX` was marked at second 1000; a show with that key and a
window of 60 seconds at second 1000 returns false and leaves the world as it was. -/
theorem C3_duplicate_show_is_noop_witness :
    is_duplicate_notification promo_marked_world.pref_file (render_ok 1000 2).now_check
      "promoX" (duplicate_time_window (fl_value_lookup_int (promo_args "n2" 60)
        "duplicateWindow")) = some true ∧
    show_notification promo_marked_world (render_ok 1000 2) (promo_args "n2" 60) =
      some (promo_marked_world, false) :=
  ⟨by decide,
   C3_duplicate_show_is_noop promo_marked_world (render_ok 1000 2) (promo_args "n2" 60)
     (FlValue.string "n2") (FlValue.string "T") (FlValue.string "B") "promoX"
     rfl rfl rfl rfl (by decide)⟩

/-! ## C4: a malformed show changes nothing -/

/-- C4. For every state and every `show_notification` request whose arguments are not a map
or that lacks any of `id`, `title` or `body`, the call returns false and leaves the whole
world as it was: registry, scheduled map, preference file (no duplicate mark is written,
whatever `duplicateKey` the request carries), event sink, and the calls made into the
notification service (no notification is created). -/
theorem C4_malformed_show_is_noop (w : World) (env : ShowEnv) (args : FlValue)
    (h : args.is_map = false ∨ fl_value_lookup_string args "id" = none ∨
      fl_value_lookup_string args "title" = none ∨
      fl_value_lookup_string args "body" = none) :
    show_notification w env args = some (w, false) := by
  unfold show_notification
  rcases h with h | h | h | h
  · simp [h]
  all_goals
    split
    · rfl
    · simp [h]

/-- C4 at concrete inputs: a request that is a string, and a request with a dedup key but no
`body`, both on the initial world. -/
theorem C4_malformed_show_is_noop_witness :
    show_notification World.initial (render_ok 1000 1) (FlValue.string "n1") =
      some (World.initial, false) ∧
    show_notification World.initial (render_ok 1000 1)
      (FlValue.map [("id", FlValue.string "n1"), ("title", FlValue.string "T"),
        ("duplicateKey", FlValue.string "promoX")]) = some (World.initial, false) :=
  ⟨C4_malformed_show_is_noop World.initial (render_ok 1000 1) (FlValue.string "n1")
     (Or.inl rfl),
   C4_malformed_show_is_noop World.initial (render_ok 1000 1) _
     (Or.inr (Or.inr (Or.inr rfl)))⟩

/-! ## C2: show, suppressed show, show after the window -/

theorem int64_to_int_of_int (x : Int) (hlo : -2147483648 ≤ x) (hhi : x ≤ INT_MAX) :
    int64_to_int x = x := by
  unfold INT_MAX at hhi
  unfold int64_to_int
  omega

/-- What a show does on a request with a dedup key `k` and a window that fits an `int`: it is
suppressed when `is_duplicate_notification` says so, and otherwise marks `k`, registers the
handle and returns the outcome of the render. -/
theorem show_notification_dedup (w : World) (env : ShowEnv) (args id_value : FlValue)
    (k : String) (window : Int) (hreq : is_dedup_request args id_value k window)
    (hlo : -2147483648 ≤ window) (hhi : window ≤ INT_MAX) (dup : Bool)
    (hdup : is_duplicate_notification w.pref_file env.now_check k window = some dup) :
    show_notification w env args =
      if dup then some (w, false)
      else
        match fl_value_get_string id_value with
        | none => none
        | some id =>
          some (shown_world w env args (mark_notification_as_sent w.pref_file env.now_mark k) id,
            if env.error then false else env.success) := by
  obtain ⟨hid, ⟨tv, htitle⟩, ⟨bv, hbody⟩, hkey, hwin⟩ := hreq
  rw [show_notification_valid w env args id_value tv bv hid htitle hbody]
  simp only [show_duplicate_check, hkey, hwin, fl_value_get_string, duplicate_time_window,
    fl_value_get_int, int64_to_int_of_int window hlo hhi, hdup]
  cases dup <;> rfl

/-- C2, as amended. Start from a preference file with no text recorded for a non-empty dedup
key `k`, let every render succeed, and let the window `window` be positive and fit an `int`.
A show with `id`, `title`, `body`, key `k` and that window, marking at time `T`, returns
true. In the world it leaves, a show with the same `k` and window (any id) at any time `t`
with `T ≤ t < T + window` returns false and changes nothing, and a show with the same `k` and
window at any time `t ≥ T + window` returns true. -/
theorem C2_show_suppress_then_show (w : World) (env1 : ShowEnv) (args1 : FlValue)
    (id1 k : String) (window : Int) (hk : k ≠ "") (hpos : 0 < window) (hfit : window ≤ INT_MAX)
    (hmin : INT64_MIN ≤ env1.now_mark) (hmax : env1.now_mark ≤ INT64_MAX)
    (hnone : load_preference w.pref_file (DUPLICATE_KEY_PREFIX ++ k) = "")
    (hreq1 : is_dedup_request args1 (FlValue.string id1) k window)
    (hok1 : env1.success = true ∧ env1.error = false) :
    ∃ w1, show_notification w env1 args1 = some (w1, true) ∧
      (∀ (env2 : ShowEnv) (args2 id_value : FlValue),
        is_dedup_request args2 id_value k window →
        env1.now_mark ≤ env2.now_check → env2.now_check < env1.now_mark + window →
        show_notification w1 env2 args2 = some (w1, false)) ∧
      (∀ (env3 : ShowEnv) (args3 : FlValue) (id3 : String),
        is_dedup_request args3 (FlValue.string id3) k window →
        env3.success = true ∧ env3.error = false →
        env1.now_mark + window ≤ env3.now_check →
        ∃ w3, show_notification w1 env3 args3 = some (w3, true)) := by
  have hlo : -2147483648 ≤ window := by omega
  have hrec : load_preference
      (shown_world w env1 args1 (mark_notification_as_sent w.pref_file env1.now_mark k)
        id1).pref_file (DUPLICATE_KEY_PREFIX ++ k) = to_string env1.now_mark :=
    load_preference_mark w.pref_file env1.now_mark k hk
  refine ⟨shown_world w env1 args1 (mark_notification_as_sent w.pref_file env1.now_mark k) id1,
    ?_, ?_, ?_⟩
  · rw [show_notification_dedup w env1 args1 _ k window hreq1 hlo hfit false
      (is_duplicate_of_no_record _ k window _ hnone)]
    simp [fl_value_get_string, hok1.1, hok1.2]
  · intro env2 args2 id_value hreq2 h1 h2
    have hd := is_duplicate_of_record _ k window env1.now_mark env2.now_check hk hmin hmax hrec
    have hlt : env2.now_check - env1.now_mark < window := by omega
    rw [show_notification_dedup _ env2 args2 id_value k window hreq2 hlo hfit true
      (by rw [hd]; simp [hlt])]
    rfl
  · intro env3 args3 id3 hreq3 hok3 h3
    have hd := is_duplicate_of_record _ k window env1.now_mark env3.now_check hk hmin hmax hrec
    have hge : ¬ env3.now_check - env1.now_mark < window := by omega
    rw [show_notification_dedup _ env3 args3 _ k window hreq3 hlo hfit false
      (by rw [hd]; simp [hge])]
    simp [fl_value_get_string, hok3.1, hok3.2]

theorem promo_args_is_dedup_request (id : String) (window : Int) :
    is_dedup_request (promo_args id window) (FlValue.string id) "promoX" window :=
  ⟨rfl, ⟨_, rfl⟩, ⟨_, rfl⟩, rfl, rfl⟩

/-- C2, as amended, at the scenario of the specification: `promoX` with a window of 60 seconds
is shown at second 1000, suppressed at second 1000 and shown again at second 1061. -/
theorem C2_show_suppress_then_show_witness :
    ∃ w1, show_notification World.initial (render_ok 1000 1) (promo_args "n1" 60) =
        some (w1, true) ∧
      show_notification w1 (render_ok 1000 2) (promo_args "n2" 60) = some (w1, false) ∧
      ∃ w3, show_notification w1 (render_ok 1061 2) (promo_args "n2" 60) = some (w3, true) := by
  obtain ⟨w1, h1, h2, h3⟩ := C2_show_suppress_then_show World.initial (render_ok 1000 1)
    (promo_args "n1" 60) "n1" "promoX" 60 (by decide) (by decide) (by decide) (by decide)
    (by decide) rfl (promo_args_is_dedup_request "n1" 60) ⟨rfl, rfl⟩
  exact ⟨w1, h1,
    h2 (render_ok 1000 2) (promo_args "n2" 60) (FlValue.string "n2")
      (promo_args_is_dedup_request "n2" 60) (by decide) (by decide),
    h3 (render_ok 1061 2) (promo_args "n2" 60) "n2" (promo_args_is_dedup_request "n2" 60)
      ⟨rfl, rfl⟩ (by decide)⟩

/-- C2 as stated fails for a positive window that does not fit an `int`. With the window
`4294967296 = 2^32` the initial file has no record of `promoX`, the first show at second 1000
returns true, and the second show with the same key and window at the same second, inside
`[T, T + w)`, returns true as well: `int time_window` is 0. -/
theorem C2_window_beyond_int_counterexample :
    (0 : Int) < 4294967296 ∧
    load_preference World.initial.pref_file (DUPLICATE_KEY_PREFIX ++ "promoX") = "" ∧
    show_notification World.initial (render_ok 1000 1) (promo_args "n1" 4294967296) =
      some (promo_shown_world 4294967296, true) ∧
    ((1000 : Int) ≤ 1000 ∧ (1000 : Int) < 1000 + 4294967296) ∧
    (show_notification (promo_shown_world 4294967296) (render_ok 1000 2)
      (promo_args "n2" 4294967296)).map Prod.snd = some true := by
  decide

/-! ## C5: a failed render rolls nothing back -/

theorem find_shown_world (w : World) (env : ShowEnv) (args : FlValue) (file : PrefFile)
    (id : String) :
    (shown_world w env args file id).self.active_notifications.find id =
      some env.notification := by
  exact StdMap.find_assign_same _ id env.notification

/-- C5. Take a `show_notification` request that passes field validation (its `id` is the
string `id`, it has a `title` and a `body`) and the duplicate check (it has no `duplicateKey`,
or its key `k` is judged not a duplicate for the request's window). Then the call returns the
outcome of `notify_notification_show`, false whenever an error is reported, and whatever that
outcome is, the registry maps `id` to the new handle and, for a non-empty key `k`, the
duplicate record of `k` holds the text of the current time. -/
theorem C5_render_failure_keeps_effects (w : World) (env : ShowEnv)
    (args title_value body_value : FlValue) (id : String) (dk : Option String)
    (hid : fl_value_lookup_string args "id" = some (FlValue.string id))
    (htitle : fl_value_lookup_string args "title" = some title_value)
    (hbody : fl_value_lookup_string args "body" = some body_value)
    (hkey : fl_value_lookup_string args "duplicateKey" = dk.map FlValue.string)
    (hpass : ∀ k, dk = some k →
      is_duplicate_notification w.pref_file env.now_check k
        (duplicate_time_window (fl_value_lookup_int args "duplicateWindow")) = some false) :
    ∃ w1, show_notification w env args = some (w1, if env.error then false else env.success) ∧
      (env.error = true → show_notification w env args = some (w1, false)) ∧
      w1.self.active_notifications.find id = some env.notification ∧
      (∀ k, dk = some k → k ≠ "" →
        load_preference w1.pref_file (DUPLICATE_KEY_PREFIX ++ k) = to_string env.now_mark) := by
  have hv := show_notification_valid w env args _ title_value body_value hid htitle hbody
  cases dk with
  | none =>
    refine ⟨shown_world w env args w.pref_file id, ?_, ?_, find_shown_world _ _ _ _ _, ?_⟩
    · rw [hv]; simp [show_duplicate_check, hkey, fl_value_get_string]
    · intro he; rw [hv]; simp [show_duplicate_check, hkey, fl_value_get_string, he]
    · intro k hk; cases hk
  | some k =>
    have hp := hpass k rfl
    refine ⟨shown_world w env args (mark_notification_as_sent w.pref_file env.now_mark k) id,
      ?_, ?_, find_shown_world _ _ _ _ _, ?_⟩
    · rw [hv]; simp [show_duplicate_check, hkey, fl_value_get_string, hp]
    · intro he; rw [hv]; simp [show_duplicate_check, hkey, fl_value_get_string, hp, he]
    · intro k2 hk2 hne
      cases hk2
      exact load_preference_mark w.pref_file env.now_mark k hne

/-- C5 at a concrete input: the first show of `promoX` on the initial world at second 1000,
with a render that reports an error, returns false, registers `n1` and marks `promoX`. -/
theorem C5_render_failure_keeps_effects_witness :
    ∃ w1, show_notification World.initial (render_error 1000 1) (promo_args "n1" 60) =
        some (w1, false) ∧
      w1.self.active_notifications.find "n1" = some 1 ∧
      load_preference w1.pref_file (DUPLICATE_KEY_PREFIX ++ "promoX") = to_string 1000 := by
  obtain ⟨w1, h1, _, h3, h4⟩ := C5_render_failure_keeps_effects World.initial
    (render_error 1000 1) (promo_args "n1" 60) (FlValue.string "T") (FlValue.string "B") "n1"
    (some "promoX") rfl rfl rfl rfl (fun k hk => by cases hk; decide)
  exact ⟨w1, h1, h3, h4 "promoX" rfl (by decide)⟩

/-! ## C6 and C7: the registry under show and cancel -/

/-- A show that returned and added calls to the notification service went past validation and
the duplicate check: it left `shown_world` for the string under `id`. -/
theorem show_notification_created (w w1 : World) (env : ShowEnv) (args : FlValue) (r : Bool)
    (h : show_notification w env args = some (w1, r)) (hnew : w1.os_calls ≠ w.os_calls) :
    ∃ id_value id file, fl_value_lookup_string args "id" = some id_value ∧
      fl_value_get_string id_value = some id ∧ w1 = shown_world w env args file id := by
  have hsame : show_notification w env args = some (w, false) → False := by
    intro h2
    rw [h2] at h
    simp only [Option.some.injEq, Prod.mk.injEq] at h
    exact hnew (by rw [← h.1])
  cases hmap : args.is_map with
  | false => exact absurd (show_notification_not_map w env args hmap) hsame
  | true =>
    cases hid : fl_value_lookup_string args "id" with
    | none => exact absurd (show_notification_missing_field w env args (Or.inl hid)) hsame
    | some id_value =>
      cases ht : fl_value_lookup_string args "title" with
      | none =>
        exact absurd (show_notification_missing_field w env args (Or.inr (Or.inl ht))) hsame
      | some title_value =>
        cases hb : fl_value_lookup_string args "body" with
        | none =>
          exact absurd (show_notification_missing_field w env args (Or.inr (Or.inr hb)))
            hsame
        | some body_value =>
          have hv := show_notification_valid w env args id_value title_value body_value hid ht hb
          rw [hv] at h hsame
          cases hc : show_duplicate_check w.pref_file env
              (fl_value_lookup_string args "duplicateKey")
              (fl_value_lookup_int args "duplicateWindow") with
          | none => rw [hc] at h; simp at h
          | some checked =>
            cases checked with
            | none => rw [hc] at hsame; exact absurd rfl hsame
            | some file =>
              rw [hc] at h
              cases hg : fl_value_get_string id_value with
              | none => rw [hg] at h; simp at h
              | some id =>
                rw [hg] at h
                simp only [Option.some.injEq, Prod.mk.injEq] at h
                exact ⟨id_value, id, file, rfl, hg, h.1.symm⟩

/-- What `cancel_notification` does for a request whose `id` is the string `id`. -/
theorem cancel_notification_valid (w : World) (args : FlValue) (id : String)
    (hid : fl_value_lookup_string args "id" = some (FlValue.string id)) :
    cancel_notification w args =
      match w.self.active_notifications.find id with
      | some notification =>
        some ({ w with
          self := { w.self with active_notifications := w.self.active_notifications.erase id },
          os_calls := w.os_calls ++ [OsCall.notification_close notification] }, true)
      | none => some (w, true) := by
  have hmap := is_map_of_lookup args "id" _ hid
  unfold cancel_notification
  simp only [hmap, hid, fl_value_get_string, Bool.not_true, Bool.false_eq_true, if_false]

/-- C6. Two successive shows with the same id that both pass validation and the duplicate
check (each adds calls to the notification service), on handles `h1` then `h2` with
`h1 ≠ h2`: the registry then holds exactly one entry for the id and it points to `h2`. A
`cancel_notification` of the id that follows returns true, issues `notify_notification_close`
on `h2` and nothing else (so never on `h1`), removes the entry and leaves the entry of every
other id as it was. -/
theorem C6_same_id_supersedes (w w1 w2 : World) (env1 env2 : ShowEnv)
    (args1 args2 cancel_args : FlValue) (id : String) (r1 r2 : Bool)
    (hid1 : fl_value_lookup_string args1 "id" = some (FlValue.string id))
    (hid2 : fl_value_lookup_string args2 "id" = some (FlValue.string id))
    (hshow1 : show_notification w env1 args1 = some (w1, r1))
    (hnew1 : w1.os_calls ≠ w.os_calls)
    (hshow2 : show_notification w1 env2 args2 = some (w2, r2))
    (hnew2 : w2.os_calls ≠ w1.os_calls)
    (hne : env1.notification ≠ env2.notification)
    (hcid : fl_value_lookup_string cancel_args "id" = some (FlValue.string id)) :
    w1.self.active_notifications.find id = some env1.notification ∧
    w2.self.active_notifications.entries.filter (fun e => decide (e.1 = id)) =
      [(id, env2.notification)] ∧
    ∃ w3, cancel_notification w2 cancel_args = some (w3, true) ∧
      w3.os_calls = w2.os_calls ++ [OsCall.notification_close env2.notification] ∧
      OsCall.notification_close env1.notification ∉ w3.os_calls.drop w2.os_calls.length ∧
      w3.self.active_notifications.find id = none ∧
      w3.self.active_notifications.entries.filter (fun e => decide (e.1 = id)) = [] ∧
      ∀ other, other ≠ id →
        w3.self.active_notifications.find other = w2.self.active_notifications.find other := by
  obtain ⟨v1, id1, f1, hv1, hg1, rfl⟩ := show_notification_created w w1 env1 args1 r1 hshow1 hnew1
  obtain ⟨v2, id2, f2, hv2, hg2, rfl⟩ := show_notification_created _ w2 env2 args2 r2 hshow2 hnew2
  rw [hid1] at hv1
  rw [hid2] at hv2
  cases hv1
  cases hv2
  simp only [fl_value_get_string, Option.some.injEq] at hg1 hg2
  subst hg1
  subst hg2
  have hfind2 := find_shown_world (shown_world w env1 args1 f1 id) env2 args2 f2 id
  refine ⟨find_shown_world w env1 args1 f1 id, ?_, ?_⟩
  · rw [StdMap.entries_of_key, hfind2]
  · rw [cancel_notification_valid _ cancel_args id hcid, hfind2]
    refine ⟨_, rfl, rfl, ?_, StdMap.find_erase_same _ id, ?_, ?_⟩
    · simp only [List.drop_left, List.mem_singleton, OsCall.notification_close.injEq]
      exact hne
    · rw [StdMap.entries_of_key, StdMap.find_erase_same]
    · intro other hother
      exact StdMap.find_erase_other _ id other hother

/-- C6 at a concrete input: `n1` is shown on handle 1 and then on handle 2, starting from a
registry that holds `n0` on handle 7; the cancel of `n1` closes handle 2 only. -/
theorem C6_same_id_supersedes_witness :
    (plain_shown_world (plain_shown_world (plain_shown_world World.initial "n0" 7) "n1" 1)
        "n1" 2).self.active_notifications.entries.filter (fun e => decide (e.1 = "n1")) =
      [("n1", 2)] ∧
    ∃ w3, cancel_notification
        (plain_shown_world (plain_shown_world (plain_shown_world World.initial "n0" 7) "n1" 1)
          "n1" 2) (id_args "n1") = some (w3, true) ∧
      w3.os_calls =
        (plain_shown_world (plain_shown_world (plain_shown_world World.initial "n0" 7) "n1" 1)
          "n1" 2).os_calls ++ [OsCall.notification_close 2] ∧
      w3.self.active_notifications.find "n1" = none ∧
      w3.self.active_notifications.find "n0" = some 7 := by
  obtain ⟨_, h2, w3, h3, h4, _, h6, _, h8⟩ := C6_same_id_supersedes
    (plain_shown_world World.initial "n0" 7)
    (plain_shown_world (plain_shown_world World.initial "n0" 7) "n1" 1)
    (plain_shown_world (plain_shown_world (plain_shown_world World.initial "n0" 7) "n1" 1)
      "n1" 2)
    (render_ok 1000 1) (render_ok 1000 2) (plain_args "n1") (plain_args "n1") (id_args "n1")
    "n1" true true rfl rfl (by decide) (by decide) (by decide) (by decide) (by decide) rfl
  refine ⟨h2, w3, h3, h4, h6, ?_⟩
  rw [h8 "n0" (by decide)]
  decide

/-- C7. `cancel_notification` is idempotent. For every world and every id, the cancel returns
true whether or not the id is registered; afterwards the id is absent from the registry; and
a further cancel of the id returns true and leaves the whole world as it was, so it issues no
`notify_notification_close`. -/
theorem C7_cancel_idempotent (w : World) (args : FlValue) (id : String)
    (hid : fl_value_lookup_string args "id" = some (FlValue.string id)) :
    ∃ w1, cancel_notification w args = some (w1, true) ∧
      w1.self.active_notifications.find id = none ∧
      cancel_notification w1 args = some (w1, true) := by
  rw [cancel_notification_valid w args id hid]
  cases hfind : w.self.active_notifications.find id with
  | none =>
    refine ⟨w, rfl, hfind, ?_⟩
    rw [cancel_notification_valid w args id hid, hfind]
  | some notification =>
    have hgone : (w.self.active_notifications.erase id).find id = none :=
      StdMap.find_erase_same _ id
    refine ⟨_, rfl, hgone, ?_⟩
    rw [cancel_notification_valid _ args id hid]
    simp only [hgone]

/-- C7 at a concrete input: cancelling `n1`, registered on handle 1, closes handle 1 once; the
second cancel returns true and changes nothing. -/
theorem C7_cancel_idempotent_witness :
    ∃ w1, cancel_notification one_active_world (id_args "n1") = some (w1, true) ∧
      w1.self.active_notifications.find "n1" = none ∧
      cancel_notification w1 (id_args "n1") = some (w1, true) :=
  C7_cancel_idempotent one_active_world (id_args "n1") "n1" rfl

/-! ## C8 and C9: the scheduled store -/

/-- What `schedule_notification` does for a request with a string `id`, a string `request`
and a `scheduledDate`. -/
theorem schedule_notification_valid (w : World) (args date_value : FlValue) (id data : String)
    (hid : fl_value_lookup_string args "id" = some (FlValue.string id))
    (hreq : fl_value_lookup_string args "request" = some (FlValue.string data))
    (hdate : fl_value_lookup_int args "scheduledDate" = some date_value) :
    schedule_notification w args =
      some ({ w with
        self := { w.self with
          scheduled_notifications := w.self.scheduled_notifications.assign id data },
        pref_file := save_preferences w.pref_file (SCHEDULED_KEY_PREFIX ++ id) data }, true) := by
  have hmap := is_map_of_lookup args "id" _ hid
  unfold schedule_notification
  simp only [hmap, hid, hreq, hdate, fl_value_get_string, Bool.not_true, Bool.false_eq_true,
    if_false]

/-- What `cancel_scheduled_notification` does for a request with a string `id`. -/
theorem cancel_scheduled_notification_valid (w : World) (args : FlValue) (id : String)
    (hid : fl_value_lookup_string args "id" = some (FlValue.string id)) :
    ∃ file, cancel_scheduled_notification w args =
      some ({ w with
        self := { w.self with
          scheduled_notifications := w.self.scheduled_notifications.erase id },
        pref_file := file }, true) := by
  have hmap := is_map_of_lookup args "id" _ hid
  unfold cancel_scheduled_notification
  simp only [hmap, hid, fl_value_get_string, Bool.not_true, Bool.false_eq_true, if_false]
  exact ⟨_, rfl⟩

/-- C8. Scheduled-store round trip. For every world, id and data: `schedule_notification`
with that id, `request = data` and a `scheduledDate` returns true, and afterwards
`get_scheduled_notifications` holds exactly one entry for the id, `(id, data)`. For every
world and id: `cancel_scheduled_notification` of the id returns true, and afterwards the list
holds no entry for the id while the entries of all other ids are as before. From an empty
scheduled map, schedule then cancel of the same id leaves an empty list. -/
theorem C8_scheduled_round_trip (w : World) (args cancel_args date_value : FlValue)
    (id data cid : String)
    (hid : fl_value_lookup_string args "id" = some (FlValue.string id))
    (hreq : fl_value_lookup_string args "request" = some (FlValue.string data))
    (hdate : fl_value_lookup_int args "scheduledDate" = some date_value)
    (hcid : fl_value_lookup_string cancel_args "id" = some (FlValue.string cid)) :
    (∃ w1, schedule_notification w args = some (w1, true) ∧
      (get_scheduled_notifications w1).filter (fun e => decide (e.1 = id)) = [(id, data)] ∧
      (get_scheduled_notifications w = [] → cid = id →
        ∃ w2, cancel_scheduled_notification w1 cancel_args = some (w2, true) ∧
          get_scheduled_notifications w2 = [])) ∧
    (∃ w2, cancel_scheduled_notification w cancel_args = some (w2, true) ∧
      (∀ e ∈ get_scheduled_notifications w2, e.1 ≠ cid) ∧
      (get_scheduled_notifications w2).filter (fun e => decide (e.1 = cid)) = [] ∧
      get_scheduled_notifications w2 =
        (get_scheduled_notifications w).filter (fun e => decide (e.1 ≠ cid))) := by
  constructor
  · refine ⟨_, schedule_notification_valid w args date_value id data hid hreq hdate, ?_, ?_⟩
    · unfold get_scheduled_notifications
      rw [StdMap.entries_of_key]
      simp only [StdMap.find_assign_same]
    · intro hempty hsame
      subst hsame
      obtain ⟨file, hc⟩ := cancel_scheduled_notification_valid
        { w with
          self := { w.self with
            scheduled_notifications := w.self.scheduled_notifications.assign cid data },
          pref_file := save_preferences w.pref_file (SCHEDULED_KEY_PREFIX ++ cid) data }
        cancel_args cid hcid
      refine ⟨_, hc, ?_⟩
      unfold get_scheduled_notifications at hempty ⊢
      simp [StdMap.erase, StdMap.assign, hempty, assoc_set_sorted, assoc_erase]
  · obtain ⟨file, hc⟩ := cancel_scheduled_notification_valid w cancel_args cid hcid
    refine ⟨_, hc, ?_, ?_, rfl⟩
    · intro e he
      have h := (assoc_get_none_iff _ cid).1 (StdMap.find_erase_same
        w.self.scheduled_notifications cid)
      exact h e he
    · unfold get_scheduled_notifications
      rw [StdMap.entries_of_key]
      simp only [StdMap.find_erase_same]

/-- C8 at the scenario of the specification: from the initial world, schedule `s1` with its
data, then cancel `s1`. -/
theorem C8_scheduled_round_trip_witness :
    ∃ w1, schedule_notification World.initial (schedule_args "s1" x1_blob) =
        some (w1, true) ∧
      get_scheduled_notifications w1 = [("s1", x1_blob)] ∧
      ∃ w2, cancel_scheduled_notification w1 (id_args "s1") = some (w2, true) ∧
        get_scheduled_notifications w2 = [] := by
  obtain ⟨⟨w1, h1, _, h3⟩, _⟩ := C8_scheduled_round_trip World.initial
    (schedule_args "s1" x1_blob) (id_args "s1") (FlValue.int 4600) "s1" x1_blob "s1"
    rfl rfl rfl rfl
  refine ⟨w1, h1, ?_, h3 rfl rfl⟩
  have h5 : (schedule_notification World.initial (schedule_args "s1" x1_blob)).map
      (fun r => get_scheduled_notifications r.1) = some [("s1", x1_blob)] := by decide
  rw [h1] at h5
  simpa using h5

/-- C9. For every world and every `schedule_notification` request whose arguments are not a
map or that lacks `id`, `request` or `scheduledDate`, the call returns false and mutates
nothing: the scheduled map and the preference file (and the rest of the world) are identical
before and after. -/
theorem C9_malformed_schedule_is_noop (w : World) (args : FlValue)
    (h : args.is_map = false ∨ fl_value_lookup_string args "id" = none ∨
      fl_value_lookup_string args "request" = none ∨
      fl_value_lookup_int args "scheduledDate" = none) :
    schedule_notification w args = some (w, false) := by
  unfold schedule_notification
  rcases h with h | h | h | h
  · simp [h]
  all_goals
    split
    · rfl
    · split
      · next h1 h2 h3 => simp [h] at h1 h2 h3
      · rfl

/-- C9 at a concrete input: a request with `id` and `request` but no `scheduledDate`. -/
theorem C9_malformed_schedule_is_noop_witness :
    schedule_notification World.initial
      (FlValue.map [("id", FlValue.string "s1"), ("request", FlValue.string "{}")]) =
      some (World.initial, false) :=
  C9_malformed_schedule_is_noop World.initial _ (Or.inr (Or.inr (Or.inr rfl)))

/-! ## C10: cancel-all of the scheduled store -/

theorem remove_members_fold (keys : List String) (p : String → Bool) :
    ∀ obj : JsonObject,
      (keys.foldl (fun o key => if p key then json_object_remove_member o key else o)
        obj).members =
      obj.members.filter (fun m => !(decide (m.1 ∈ keys) && p m.1)) := by
  induction keys with
  | nil => intro obj; simp
  | cons k ks ih =>
    intro obj
    rw [List.foldl_cons, ih]
    by_cases hp : p k = true
    · simp only [hp, if_true, json_object_remove_member, assoc_erase, List.filter_filter]
      apply List.filter_congr
      intro m _
      by_cases hm : m.1 = k
      · simp [hm, hp]
      · simp [hm]
    · simp only [hp, Bool.false_eq_true, if_false]
      apply List.filter_congr
      intro m _
      by_cases hm : m.1 = k
      · simp [hm, hp]
      · simp [hm]

theorem remove_scheduled_members_eq (root_obj : JsonObject) :
    (remove_scheduled_members root_obj).members =
      root_obj.members.filter (fun m => ! g_str_has_prefix m.1 SCHEDULED_KEY_PREFIX) := by
  unfold remove_scheduled_members
  rw [remove_members_fold (json_object_get_members root_obj)
    (fun key => g_str_has_prefix key SCHEDULED_KEY_PREFIX) root_obj]
  apply List.filter_congr
  intro m hm
  have hmem : m.1 ∈ json_object_get_members root_obj := List.mem_map_of_mem Prod.fst hm
  simp [hmem]

theorem assoc_get_filter_keys {V : Type} (l : List (String × V)) (p : String → Bool)
    (key : String) (hkey : p key = true) :
    assoc_get (l.filter (fun m => p m.1)) key = assoc_get l key := by
  induction l with
  | nil => rfl
  | cons q rest ih =>
    obtain ⟨a, x⟩ := q
    by_cases ha : p a = true
    · simp [List.filter_cons, ha, assoc_get, ih]
    · have hne : ¬ a = key := fun e => ha (e ▸ hkey)
      simp [List.filter_cons, ha, assoc_get, ih, hne]

theorem duplicate_key_not_scheduled (k : String) :
    g_str_has_prefix (DUPLICATE_KEY_PREFIX ++ k) SCHEDULED_KEY_PREFIX = false := by
  simp [ g_str_has_prefix, DUPLICATE_KEY_PREFIX, SCHEDULED_KEY_PREFIX, String.data_append,
    List.isPrefixOf]

/-- C10. For every world whose preference file holds a JSON object, after
`cancel_all_scheduled_notifications` (which returns true) the in-memory scheduled map is
empty, the file holds an object with no member whose name begins with the scheduled prefix,
and every name that does not begin with that prefix has the member it had before, with the
same value: so do the duplicate records and a plain key such as `foo`. -/
theorem C10_cancel_all_scheduled_keeps_other_keys (w : World) (root_obj : JsonObject)
    (hfile : w.pref_file = PrefFile.object root_obj) :
    (cancel_all_scheduled_notifications w).2 = true ∧
    get_scheduled_notifications (cancel_all_scheduled_notifications w).1 = [] ∧
    ∃ root1, (cancel_all_scheduled_notifications w).1.pref_file = PrefFile.object root1 ∧
      (∀ key ∈ json_object_get_members root1,
        g_str_has_prefix key SCHEDULED_KEY_PREFIX = false) ∧
      (∀ key, g_str_has_prefix key SCHEDULED_KEY_PREFIX = false →
        json_object_get_member root1 key = json_object_get_member root_obj key) ∧
      (∀ k, json_object_get_member root1 (DUPLICATE_KEY_PREFIX ++ k) =
        json_object_get_member root_obj (DUPLICATE_KEY_PREFIX ++ k)) ∧
      json_object_get_member root1 "foo" = json_object_get_member root_obj "foo" := by
  have hkeep : ∀ key, g_str_has_prefix key SCHEDULED_KEY_PREFIX = false →
      json_object_get_member (remove_scheduled_members root_obj) key =
        json_object_get_member root_obj key := by
    intro key hkey
    unfold json_object_get_member
    rw [remove_scheduled_members_eq]
    exact assoc_get_filter_keys root_obj.members
      (fun name => ! g_str_has_prefix name SCHEDULED_KEY_PREFIX) key (by simp [hkey])
  refine ⟨rfl, rfl, remove_scheduled_members root_obj, ?_, ?_, hkeep, ?_, ?_⟩
  · simp [cancel_all_scheduled_notifications, hfile]
  · intro key hkey
    unfold json_object_get_members at hkey
    rw [remove_scheduled_members_eq] at hkey
    obtain ⟨m, hm, rfl⟩ := List.mem_map.1 hkey
    simpa using (List.mem_filter.1 hm).2
  · intro k
    exact hkeep _ (duplicate_key_not_scheduled k)
  · exact hkeep "foo" (by decide)

/-- C10 at a concrete input: a file with the plain key `foo`, the scheduled record of `s1` and
the duplicate record of `promoX` keeps the first and the last. -/
theorem C10_cancel_all_scheduled_keeps_other_keys_witness :
    cancel_all_scheduled_notifications mixed_world =
      ({ World.initial with pref_file := PrefFile.object mixed_root_kept }, true) ∧
    ∃ root1, (cancel_all_scheduled_notifications mixed_world).1.pref_file =
        PrefFile.object root1 ∧
      json_object_get_member root1 "foo" = json_object_get_member mixed_root "foo" :=
  ⟨by decide,
   (C10_cancel_all_scheduled_keeps_other_keys mixed_world mixed_root rfl).2.2.imp
     (fun _ h => ⟨h.1, h.2.2.2.2⟩)⟩

/-! ## What each handler does to the scheduled map, the preference file and the sink -/

theorem show_duplicate_check_file (file file1 : PrefFile) (env : ShowEnv)
    (duplicate_key_value duplicate_window_value : Option FlValue)
    (h : show_duplicate_check file env duplicate_key_value duplicate_window_value =
      some (some file1)) :
    file1 = file ∨ ∃ k, k ≠ "" ∧
      file1 = save_preferences file (DUPLICATE_KEY_PREFIX ++ k) (to_string env.now_mark) := by
  cases duplicate_key_value with
  | none =>
    simp only [show_duplicate_check, Option.some.injEq] at h
    exact Or.inl h.symm
  | some key_value =>
    cases hg : fl_value_get_string key_value with
    | none => simp [show_duplicate_check, hg] at h
    | some duplicate_key =>
      cases hd : is_duplicate_notification file env.now_check duplicate_key
          (duplicate_time_window duplicate_window_value) with
      | none => simp [show_duplicate_check, hg, hd] at h
      | some dup =>
        cases dup with
        | true => simp [show_duplicate_check, hg, hd] at h
        | false =>
          simp only [show_duplicate_check, hg, hd, Option.some.injEq] at h
          by_cases hk : duplicate_key = ""
          · left; rw [← h]; simp [mark_notification_as_sent, hk]
          · right
            refine ⟨duplicate_key, hk, ?_⟩
            rw [← h]; simp [mark_notification_as_sent, hk]

theorem show_notification_effect (w w1 : World) (env : ShowEnv) (args : FlValue) (r : Bool)
    (h : show_notification w env args = some (w1, r)) :
    w1.self.event_sink = w.self.event_sink ∧ StoreEffect false env.now_mark w w1 := by
  have hsame : show_notification w env args = some (w, false) →
      w1.self.event_sink = w.self.event_sink ∧ StoreEffect false env.now_mark w w1 := by
    intro h2
    rw [h2] at h
    simp only [Option.some.injEq, Prod.mk.injEq] at h
    rw [← h.1]
    exact ⟨rfl, StoreEffect.same rfl rfl⟩
  cases hmap : args.is_map with
  | false => exact hsame (show_notification_not_map w env args hmap)
  | true =>
    cases hid : fl_value_lookup_string args "id" with
    | none => exact hsame (show_notification_missing_field w env args (Or.inl hid))
    | some id_value =>
      cases ht : fl_value_lookup_string args "title" with
      | none => exact hsame (show_notification_missing_field w env args (Or.inr (Or.inl ht)))
      | some title_value =>
        cases hb : fl_value_lookup_string args "body" with
        | none => exact hsame (show_notification_missing_field w env args (Or.inr (Or.inr hb)))
        | some body_value =>
          have hv := show_notification_valid w env args id_value title_value body_value hid ht hb
          rw [hv] at h hsame
          cases hc : show_duplicate_check w.pref_file env
              (fl_value_lookup_string args "duplicateKey")
              (fl_value_lookup_int args "duplicateWindow") with
          | none => rw [hc] at h; simp at h
          | some checked =>
            cases checked with
            | none => rw [hc] at hsame; exact hsame rfl
            | some file =>
              rw [hc] at h
              cases hg : fl_value_get_string id_value with
              | none => rw [hg] at h; simp at h
              | some id =>
                rw [hg] at h
                simp only [Option.some.injEq, Prod.mk.injEq] at h
                rw [← h.1]
                refine ⟨rfl, ?_⟩
                rcases show_duplicate_check_file _ _ _ _ _ hc with hf | ⟨k, hk, hf⟩
                · exact StoreEffect.same rfl hf
                · exact StoreEffect.marked k hk rfl hf

theorem cancel_notification_effect (clears : Bool) (now : Int) (w w1 : World) (args : FlValue)
    (r : Bool) (h : cancel_notification w args = some (w1, r)) :
    w1.self.event_sink = w.self.event_sink ∧ StoreEffect clears now w w1 := by
  unfold cancel_notification at h
  repeat' split at h
  all_goals first
    | (simp at h; done)
    | (simp only [Option.some.injEq, Prod.mk.injEq] at h
       rw [← h.1]
       exact ⟨rfl, StoreEffect.same rfl rfl⟩)

theorem schedule_notification_effect (clears : Bool) (now : Int) (w w1 : World) (args : FlValue)
    (r : Bool) (h : schedule_notification w args = some (w1, r)) :
    w1.self.event_sink = w.self.event_sink ∧ StoreEffect clears now w w1 := by
  unfold schedule_notification at h
  repeat' split at h
  all_goals first
    | (simp at h; done)
    | (simp only [Option.some.injEq, Prod.mk.injEq] at h
       rw [← h.1]
       exact ⟨rfl, StoreEffect.same rfl rfl⟩)
    | (simp only [Option.some.injEq, Prod.mk.injEq] at h
       rw [← h.1]
       exact ⟨rfl, StoreEffect.stored _ _ rfl rfl⟩)

theorem update_scheduled_notification_effect (clears : Bool) (now : Int) (w w1 : World) (args : FlValue)
    (r : Bool) (h : update_scheduled_notification w args = some (w1, r)) :
    w1.self.event_sink = w.self.event_sink ∧ StoreEffect clears now w w1 := by
  unfold update_scheduled_notification at h
  repeat' split at h
  all_goals first
    | (simp at h; done)
    | (simp only [Option.some.injEq, Prod.mk.injEq] at h
       rw [← h.1]
       exact ⟨rfl, StoreEffect.same rfl rfl⟩)
    | (simp only [Option.some.injEq, Prod.mk.injEq] at h
       rw [← h.1]
       exact ⟨rfl, StoreEffect.stored _ _ rfl rfl⟩)

theorem cancel_scheduled_notification_effect (clears : Bool) (now : Int) (w w1 : World)
    (args : FlValue) (r : Bool) (h : cancel_scheduled_notification w args = some (w1, r)) :
    w1.self.event_sink = w.self.event_sink ∧ StoreEffect clears now w w1 := by
  cases hmap : args.is_map with
  | false =>
    simp only [cancel_scheduled_notification, hmap, Bool.not_false, if_true,
      Option.some.injEq, Prod.mk.injEq] at h
    rw [← h.1]
    exact ⟨rfl, StoreEffect.same rfl rfl⟩
  | true =>
    cases hid : fl_value_lookup_string args "id" with
    | none =>
      simp only [cancel_scheduled_notification, hmap, hid, Bool.not_true, Bool.false_eq_true,
        if_false, Option.some.injEq, Prod.mk.injEq] at h
      rw [← h.1]
      exact ⟨rfl, StoreEffect.same rfl rfl⟩
    | some id_value =>
      cases hg : fl_value_get_string id_value with
      | none => simp [cancel_scheduled_notification, hmap, hid, hg] at h
      | some id =>
        simp only [cancel_scheduled_notification, hmap, hid, hg, Bool.not_true,
          Bool.false_eq_true, if_false, Option.some.injEq, Prod.mk.injEq] at h
        rw [← h.1]
        exact ⟨rfl, StoreEffect.dropped id rfl rfl⟩

/-- What one `Op` does: the sink is the one `Op.next_sink` gives, and the scheduled map and
the preference file change by one of the `StoreEffect`s. -/
theorem step_effect (w w1 : World) (op : Op) (h : step w op = some w1) :
    w1.self.event_sink = op.next_sink w.self.event_sink ∧
      StoreEffect op.clears_history op.mark_clock w w1 := by
  cases op with
  | action_invoked notification action =>
    simp only [step, Option.some.injEq] at h
    rw [← h]
    unfold on_notification_action
    split
    · exact ⟨rfl, StoreEffect.same rfl rfl⟩
    · exact ⟨rfl, StoreEffect.same rfl rfl⟩
  | closed notification =>
    simp only [step, Option.some.injEq] at h
    rw [← h]
    exact ⟨rfl, StoreEffect.same rfl rfl⟩
  | listen events =>
    simp only [step, Option.some.injEq] at h
    rw [← h]
    exact ⟨rfl, StoreEffect.same rfl rfl⟩
  | cancel_listen =>
    simp only [step, Option.some.injEq] at h
    rw [← h]
    exact ⟨rfl, StoreEffect.same rfl rfl⟩
  | method_call env method args =>
    simp only [step, Option.map_eq_some', Prod.exists, exists_and_right, exists_eq_right] at h
    obtain ⟨response, h⟩ := h
    simp only [Op.next_sink, Op.clears_history, Op.mark_clock]
    have hkeep : ∀ r : Option (World × Bool), respond_bool r = some (w1, response) →
        ∃ b, r = some (w1, b) := by
      intro r hr
      cases r with
      | none => simp [respond_bool] at hr
      | some p =>
        simp only [respond_bool, Option.map_some', Option.some.injEq, Prod.mk.injEq] at hr
        exact ⟨p.2, by rw [← hr.1]⟩
    unfold notification_manager_plugin_handle_method_call at h
    by_cases hm : method = "initialize"
    · rw [if_pos hm] at h
      simp only [Option.some.injEq, Prod.mk.injEq] at h
      rw [← h.1]; exact ⟨rfl, StoreEffect.same rfl rfl⟩
    rw [if_neg hm] at h
    clear hm
    by_cases hm : method = "requestPermissions"
    · rw [if_pos hm] at h
      simp only [Option.some.injEq, Prod.mk.injEq] at h
      rw [← h.1]; exact ⟨rfl, StoreEffect.same rfl rfl⟩
    rw [if_neg hm] at h
    clear hm
    by_cases hm : method = "areNotificationsEnabled"
    · rw [if_pos hm] at h
      simp only [Option.some.injEq, Prod.mk.injEq] at h
      rw [← h.1]; exact ⟨rfl, StoreEffect.same rfl rfl⟩
    rw [if_neg hm] at h
    clear hm
    by_cases hm : method = "showNotification"
    · rw [if_pos hm] at h
      obtain ⟨b, hb⟩ := hkeep _ h
      have hne : ¬ method = "clearNotificationHistory" := by rw [hm]; decide
      simp only [hne, decide_False]
      exact show_notification_effect w w1 env args b hb
    rw [if_neg hm] at h
    clear hm
    by_cases hm : method = "scheduleNotification"
    · rw [if_pos hm] at h
      obtain ⟨b, hb⟩ := hkeep _ h
      exact schedule_notification_effect _ _ w w1 args b hb
    rw [if_neg hm] at h
    clear hm
    by_cases hm : method = "getScheduledNotifications"
    · rw [if_pos hm] at h
      simp only [Option.some.injEq, Prod.mk.injEq] at h
      rw [← h.1]; exact ⟨rfl, StoreEffect.same rfl rfl⟩
    rw [if_neg hm] at h
    clear hm
    by_cases hm : method = "updateScheduledNotification"
    · rw [if_pos hm] at h
      obtain ⟨b, hb⟩ := hkeep _ h
      exact update_scheduled_notification_effect _ _ w w1 args b hb
    rw [if_neg hm] at h
    clear hm
    by_cases hm : method = "cancelNotification"
    · rw [if_pos hm] at h
      obtain ⟨b, hb⟩ := hkeep _ h
      exact cancel_notification_effect _ _ w w1 args b hb
    rw [if_neg hm] at h
    clear hm
    by_cases hm : method = "cancelScheduledNotification"
    · rw [if_pos hm] at h
      obtain ⟨b, hb⟩ := hkeep _ h
      exact cancel_scheduled_notification_effect _ _ w w1 args b hb
    rw [if_neg hm] at h
    clear hm
    by_cases hm : method = "cancelAllNotifications"
    · rw [if_pos hm] at h
      obtain ⟨b, hb⟩ := hkeep _ h
      simp only [cancel_all_notifications, Option.some.injEq, Prod.mk.injEq] at hb
      rw [← hb.1]; exact ⟨rfl, StoreEffect.same rfl rfl⟩
    rw [if_neg hm] at h
    clear hm
    by_cases hm : method = "cancelAllScheduledNotifications"
    · rw [if_pos hm] at h
      obtain ⟨b, hb⟩ := hkeep _ h
      simp only [cancel_all_scheduled_notifications, Option.some.injEq, Prod.mk.injEq] at hb
      rw [← hb.1]; exact ⟨rfl, StoreEffect.dropped_all rfl rfl⟩
    rw [if_neg hm] at h
    clear hm
    by_cases hm : method = "getBadgeCount"
    · rw [if_pos hm] at h
      simp only [Option.some.injEq, Prod.mk.injEq] at h
      rw [← h.1]; exact ⟨rfl, StoreEffect.same rfl rfl⟩
    rw [if_neg hm] at h
    clear hm
    by_cases hm : method = "setBadgeCount"
    · rw [if_pos hm] at h
      simp only [Option.some.injEq, Prod.mk.injEq] at h
      rw [← h.1]; exact ⟨rfl, StoreEffect.same rfl rfl⟩
    rw [if_neg hm] at h
    clear hm
    by_cases hm : method = "clearBadgeCount"
    · rw [if_pos hm] at h
      simp only [Option.some.injEq, Prod.mk.injEq] at h
      rw [← h.1]; exact ⟨rfl, StoreEffect.same rfl rfl⟩
    rw [if_neg hm] at h
    clear hm
    by_cases hm : method = "isDuplicateNotification"
    · rw [if_pos hm] at h
      simp only [Option.map_eq_some', Prod.mk.injEq] at h
      obtain ⟨_, _, h2, _⟩ := h
      rw [← h2]; exact ⟨rfl, StoreEffect.same rfl rfl⟩
    rw [if_neg hm] at h
    clear hm
    by_cases hm : method = "clearNotificationHistory"
    · rw [if_pos hm] at h
      obtain ⟨b, hb⟩ := hkeep _ h
      simp only [clear_notification_history, Option.some.injEq, Prod.mk.injEq] at hb
      rw [← hb.1]
      exact ⟨rfl, StoreEffect.cleared (by simp [hm]) rfl rfl⟩
    rw [if_neg hm] at h
    clear hm
    simp only [Option.some.injEq, Prod.mk.injEq] at h
    rw [← h.1]; exact ⟨rfl, StoreEffect.same rfl rfl⟩

/-! ## C11: the scheduled map and its mirror in the preference file -/

theorem prefixed_key_inj (pre a b : String) (h : pre ++ a = pre ++ b) : a = b := by
  have hd : (pre ++ a).data = (pre ++ b).data := by rw [h]
  rw [String.data_append, String.data_append] at hd
  exact String.ext (List.append_cancel_left hd)

theorem scheduled_key_ne_duplicate_key (id k : String) :
    SCHEDULED_KEY_PREFIX ++ id ≠ DUPLICATE_KEY_PREFIX ++ k := by
  intro h
  have hd : (SCHEDULED_KEY_PREFIX ++ id).data = (DUPLICATE_KEY_PREFIX ++ k).data := by rw [h]
  simp [String.data_append, SCHEDULED_KEY_PREFIX, DUPLICATE_KEY_PREFIX] at hd

theorem assoc_get_set_tail_other {V : Type} (l : List (String × V)) (key other : String)
    (v : V) (hne : other ≠ key) :
    assoc_get (assoc_set_tail l key v) other = assoc_get l other := by
  have hne2 : ¬ key = other := fun e => hne e.symm
  induction l with
  | nil => simp [assoc_set_tail, assoc_get, hne2]
  | cons p rest ih =>
    obtain ⟨a, x⟩ := p
    by_cases h : a = key
    · have h3 : ¬ a = other := fun e => hne2 (h ▸ e)
      simp [assoc_set_tail, assoc_get, h, hne2]
    · simp [assoc_set_tail, assoc_get, h, ih]

/-- After `save_preferences` the file holds an object whose member `key` is the string
`value`. -/
theorem save_preferences_member (file : PrefFile) (key value : String) :
    ∃ root1, save_preferences file key value = PrefFile.object root1 ∧
      json_object_get_member root1 key = some (JsonNode.string value) :=
  ⟨_, rfl, assoc_get_set_tail_same _ key _⟩

/-- After `save_preferences` on an object, every other member is as before. -/
theorem save_preferences_other_member (root_obj : JsonObject) (key value other : String)
    (hne : other ≠ key) :
    ∃ root1, save_preferences (PrefFile.object root_obj) key value = PrefFile.object root1 ∧
      json_object_get_member root1 other = json_object_get_member root_obj other :=
  ⟨_, save_preferences_object root_obj key value,
    assoc_get_set_tail_other root_obj.members key other _ hne⟩

/-- Every `StoreEffect` other than the deletion of the file keeps the scheduled map mirrored
in the preference file. -/
theorem scheduled_mirrored_effect (now : Int) (w w1 : World) (h : StoreEffect false now w w1)
    (hinv : scheduled_mirrored w) : scheduled_mirrored w1 := by
  intro id data hfind
  cases h with
  | same hmap hfile =>
    rw [hmap] at hfind
    rw [hfile]
    exact hinv id data hfind
  | marked k hk hmap hfile =>
    rw [hmap] at hfind
    obtain ⟨root_obj, hroot, hmem⟩ := hinv id data hfind
    rw [hfile, hroot]
    obtain ⟨root1, h1, h2⟩ := save_preferences_other_member root_obj
      (DUPLICATE_KEY_PREFIX ++ k) (to_string now) (SCHEDULED_KEY_PREFIX ++ id)
      (scheduled_key_ne_duplicate_key id k)
    exact ⟨root1, h1, by rw [h2, hmem]⟩
  | stored id0 data0 hmap hfile =>
    rw [hmap] at hfind
    rw [hfile]
    by_cases hid : id = id0
    · subst hid
      rw [StdMap.find_assign_same] at hfind
      cases hfind
      exact save_preferences_member _ _ _
    · rw [StdMap.find_assign_other _ id0 id data0 hid] at hfind
      obtain ⟨root_obj, hroot, hmem⟩ := hinv id data hfind
      rw [hroot]
      obtain ⟨root1, h1, h2⟩ := save_preferences_other_member root_obj
        (SCHEDULED_KEY_PREFIX ++ id0) data0 (SCHEDULED_KEY_PREFIX ++ id)
        (fun e => hid (prefixed_key_inj _ _ _ e))
      exact ⟨root1, h1, by rw [h2, hmem]⟩
  | dropped id0 hmap hfile =>
    rw [hmap] at hfind
    by_cases hid : id = id0
    · subst hid
      rw [StdMap.find_erase_same] at hfind
      cases hfind
    · rw [StdMap.find_erase_other _ id0 id hid] at hfind
      obtain ⟨root_obj, hroot, hmem⟩ := hinv id data hfind
      rw [hfile, hroot]
      refine ⟨_, rfl, ?_⟩
      unfold json_object_get_member json_object_remove_member
      rw [assoc_get_erase_other _ _ _ (fun e => hid (prefixed_key_inj _ _ _ e))]
      exact hmem
  | dropped_all hmap hfile =>
    rw [hmap] at hfind
    cases hfind
  | cleared hclears _ _ => cases hclears

/-- A run without `clearNotificationHistory` keeps the scheduled map mirrored. -/
theorem scheduled_mirrored_run (ops : List Op) :
    ∀ w w1, ops.all (fun op => !op.clears_history) = true → run w ops = some w1 →
      scheduled_mirrored w → scheduled_mirrored w1 := by
  induction ops with
  | nil =>
    intro w w1 _ hrun hinv
    simp only [run, Option.some.injEq] at hrun
    rw [← hrun]; exact hinv
  | cons op rest ih =>
    intro w w1 hall hrun hinv
    simp only [List.all_cons, Bool.and_eq_true, Bool.not_eq_true'] at hall
    unfold run at hrun
    cases hstep : step w op with
    | none => rw [hstep] at hrun; cases hrun
    | some w2 =>
      rw [hstep] at hrun
      have heff := (step_effect w w2 op hstep).2
      rw [hall.1] at heff
      exact ih w2 w1 hall.2 hrun (scheduled_mirrored_effect _ w w2 heff hinv)

/-- C11, as amended. In every state reachable from the initial state (empty scheduled map, no
preference file) by any sequence of the plugin's operations other than
`clearNotificationHistory` (method calls, notification signals and event channel
subscriptions), every entry `(id, data)` of the in-memory scheduled map has the member
`scheduled_notification_<id>` with the string `data` in the root object of the preference
file. -/
theorem C11_scheduled_mirrored_without_clear (ops : List Op) (w : World)
    (hops : ops.all (fun op => !op.clears_history) = true)
    (hrun : run World.initial ops = some w) : scheduled_mirrored w :=
  scheduled_mirrored_run ops World.initial w hops hrun (by
    intro id data hfind
    cases hfind)

/-- C11, as amended, at a concrete run: schedule `s1`, show `promoX`, update `s2`, cancel the
scheduled `s2`, schedule `s3`. -/
theorem C11_scheduled_mirrored_without_clear_witness :
    ∃ w, run World.initial mirrored_ops = some w ∧
      get_scheduled_notifications w = [("s1", x1_blob), ("s3", x1_blob)] ∧
      scheduled_mirrored w := by
  have hrun : (run World.initial mirrored_ops).isSome = true := by decide
  obtain ⟨w, hw⟩ := Option.isSome_iff_exists.1 hrun
  have hlist : (run World.initial mirrored_ops).map get_scheduled_notifications =
      some [("s1", x1_blob), ("s3", x1_blob)] := by decide
  rw [hw] at hlist
  exact ⟨w, hw, by simpa using hlist,
    C11_scheduled_mirrored_without_clear mirrored_ops w (by decide) hw⟩

/-- C11 as stated fails once `clearNotificationHistory` is among the operations: after
scheduling `s1` and clearing the history, the scheduled map still holds `s1` while the
preference file is gone, so the entry has no record in the store. -/
theorem C11_clear_history_counterexample :
    ∃ w, run World.initial schedule_then_clear_ops = some w ∧
      w.self.scheduled_notifications.find "s1" = some x1_blob ∧
      w.pref_file = PrefFile.missing ∧ ¬ scheduled_mirrored w := by
  have hrun : (run World.initial schedule_then_clear_ops).isSome = true := by decide
  obtain ⟨w, hw⟩ := Option.isSome_iff_exists.1 hrun
  have hfind : (run World.initial schedule_then_clear_ops).map
      (fun w => (w.self.scheduled_notifications.find "s1", w.pref_file)) =
      some (some x1_blob, PrefFile.missing) := by decide
  rw [hw] at hfind
  simp only [Option.map_some', Option.some.injEq, Prod.mk.injEq] at hfind
  refine ⟨w, hw, hfind.1, hfind.2, ?_⟩
  intro hinv
  obtain ⟨root_obj, hroot, _⟩ := hinv "s1" x1_blob hfind.1
  rw [hfind.2] at hroot
  cases hroot

/-! ## C12: set and get on the preference store -/

theorem load_preference_save_other (file : PrefFile) (key value other : String)
    (hne : other ≠ key) :
    load_preference (save_preferences file key value) other = load_preference file other := by
  have hfresh : load_preference
      (PrefFile.object (json_object_set_member json_object_new key (JsonNode.string value)))
      other = "" := by
    have hne2 : ¬ key = other := fun e => hne e.symm
    simp [load_preference, json_object_get_string_member, json_object_get_member,
      json_object_set_member, json_object_new, assoc_set_tail, assoc_get, hne2]
  cases file with
  | object root_obj =>
    rw [save_preferences_object]
    simp only [load_preference, json_object_get_string_member, json_object_get_member,
      json_object_set_member, assoc_get_set_tail_other root_obj.members key other _ hne]
  | missing => exact hfresh
  | unparsable text => exact hfresh
  | non_object text => exact hfresh

/-- C12. For every prior state of the preference file (missing, unparsable, a root that is not
an object, or an object), every key `k` and value `v`: `load_preference(k)` after
`save_preferences(k, v)` returns `v`; for every other key, `load_preference` returns the same
string after the save as before it; and `load_preference` returns the empty string whenever the
file is missing, unparsable, not an object, or an object with no member of that name. -/
theorem C12_preference_set_get (file : PrefFile) (k v : String) :
    load_preference (save_preferences file k v) k = v ∧
    (∀ other, other ≠ k →
      load_preference (save_preferences file k v) other = load_preference file other) ∧
    load_preference PrefFile.missing k = "" ∧
    (∀ text, load_preference (PrefFile.unparsable text) k = "") ∧
    (∀ text, load_preference (PrefFile.non_object text) k = "") ∧
    (∀ root_obj, json_object_get_member root_obj k = none →
      load_preference (PrefFile.object root_obj) k = "") := by
  refine ⟨?_, ?_, rfl, fun _ => rfl, fun _ => rfl, ?_⟩
  · simp [load_preference, save_preferences, json_object_get_string_member,
      json_object_get_member, json_object_set_member, assoc_get_set_tail_same]
  · intro other hne
    exact load_preference_save_other file k v other hne
  · intro root_obj hnone
    simp [load_preference, json_object_get_string_member, hnone]

/-! ## C13: delivery of action events -/

theorem assoc_get_mem {V : Type} (l : List (String × V)) (key : String) (v : V)
    (h : assoc_get l key = some v) : (key, v) ∈ l := by
  induction l with
  | nil => simp [assoc_get] at h
  | cons p rest ih =>
    obtain ⟨a, x⟩ := p
    by_cases ha : a = key
    · simp only [assoc_get, ha, if_true, Option.some.injEq] at h
      rw [ha, h]; exact List.mem_cons_self _ _
    · simp only [assoc_get, ha, if_false] at h
      exact List.mem_cons_of_mem _ (ih h)

theorem assoc_get_of_mem {V : Type} (l : List (String × V)) (key : String) (v : V)
    (hs : l.Pairwise (fun p q => string_lt p.1 q.1 = true)) (h : (key, v) ∈ l) :
    assoc_get l key = some v := by
  induction l with
  | nil => cases h
  | cons p rest ih =>
    obtain ⟨a, x⟩ := p
    rw [List.pairwise_cons] at hs
    rcases List.mem_cons.1 h with e | e
    · cases e; simp [assoc_get]
    · have hne : ¬ a = key := string_lt_ne _ _ (hs.1 (key, v) e)
      simp only [assoc_get, hne, if_false]
      exact ih hs.2 e

/-- A run leaves the sink that the most recent `on_listen` or `on_cancel` set. -/
theorem run_event_sink (ops : List Op) :
    ∀ w w1, run w ops = some w1 → w1.self.event_sink = last_sink w.self.event_sink ops := by
  induction ops with
  | nil =>
    intro w w1 hrun
    simp only [run, Option.some.injEq] at hrun
    rw [← hrun]; rfl
  | cons op rest ih =>
    intro w w1 hrun
    unfold run at hrun
    cases hstep : step w op with
    | none => rw [hstep] at hrun; cases hrun
    | some w2 =>
      rw [hstep] at hrun
      rw [ih w2 w1 hrun, (step_effect w w2 op hstep).1]
      rfl

/-- C13. Let `w` be reached from the initial state by a sequence of operations, and let the
action signal arrive for handle `h` with action `a`. If no sink is registered (no `on_listen`
in the sequence, or an `on_cancel` after the last one), no event is sent and the state is
unchanged. Otherwise exactly one event is added, sent to the sink set by the most recent
`on_listen`, with type `action` and actionId `a`; its notificationId is an id that the
registry maps to `h` when there is one, and is absent when there is none (the event is
delivered all the same). -/
theorem C13_action_event_delivery (ops : List Op) (w : World) (h : Handle) (a : String)
    (hrun : run World.initial ops = some w) :
    (last_sink none ops = none → on_notification_action w h a = w) ∧
    (∀ sink, last_sink none ops = some sink →
      ∃ event, on_notification_action w h a =
          { w with sent_events := w.sent_events ++ [(sink, event)] } ∧
        event.type = "action" ∧ event.actionId = a ∧
        (∀ id, event.notificationId = some id →
          w.self.active_notifications.find id = some h) ∧
        ((∃ id, w.self.active_notifications.find id = some h) →
          event.notificationId ≠ none) ∧
        ((∀ id, w.self.active_notifications.find id ≠ some h) →
          event.notificationId = none)) := by
  have hsink : w.self.event_sink = last_sink none ops := run_event_sink ops _ w hrun
  constructor
  · intro hnone
    rw [hnone] at hsink
    simp [on_notification_action, hsink]
  · intro sink hsome
    rw [hsome] at hsink
    refine ⟨Event.mk "action" a
        ((w.self.active_notifications.entries.find? (fun pair => pair.2 = h)).map Prod.fst),
      by simp only [on_notification_action, hsink], rfl, rfl, ?_, ?_, ?_⟩
    · intro id hid
      simp only [Option.map_eq_some'] at hid
      obtain ⟨pair, hfound, hfst⟩ := hid
      have hmem := List.mem_of_find?_eq_some hfound
      have hval := List.find?_some hfound
      simp only [decide_eq_true_eq] at hval
      obtain ⟨key, v⟩ := pair
      simp only at hfst hval
      subst hfst
      subst hval
      exact assoc_get_of_mem _ _ _ w.self.active_notifications.ascending hmem
    · intro hex hnone
      obtain ⟨id, hid⟩ := hex
      simp only [Option.map_eq_none', List.find?_eq_none, decide_eq_true_eq] at hnone
      exact hnone _ (assoc_get_mem _ _ _ hid) rfl
    · intro hall
      simp only [Option.map_eq_none', List.find?_eq_none, decide_eq_true_eq]
      intro pair hmem hval
      obtain ⟨key, v⟩ := pair
      simp only at hval
      subst hval
      exact hall key (assoc_get_of_mem _ _ _ w.self.active_notifications.ascending hmem)

/-- C13 at a concrete run: after listening on sink 5 and showing `n1` on handle 1, the action
`open` on handle 1 sends one event to sink 5. -/
theorem C13_action_event_delivery_witness :
    run World.initial listen_show_ops = some listening_world ∧
    ∃ event, on_notification_action listening_world 1 "open" =
        { listening_world with sent_events := listening_world.sent_events ++ [(5, event)] } ∧
      event.type = "action" ∧ event.actionId = "open" ∧ event.notificationId ≠ none := by
  have hrun : run World.initial listen_show_ops = some listening_world := by decide
  obtain ⟨event, h1, h2, h3, _, h5, _⟩ :=
    (C13_action_event_delivery listen_show_ops listening_world 1 "open" hrun).2 5 rfl
  exact ⟨hrun, event, h1, h2, h3, h5 ⟨"n1", by decide⟩⟩

/-! ## C14: the name of the duplicate record -/

/-- C14, as amended. The duplicate record of a dedup key `k` is stored in the preference file
under the name `notification_duplicate_` followed by `k` (the value of
`DUPLICATE_KEY_PREFIX`): for every non-empty `k`, after `mark_notification_as_sent(k)` the
file holds an object with a member of exactly that name whose value is the string of the
epoch-seconds timestamp, and `is_duplicate_notification(k, w)` reads that same member: its
answer is computed from the string `load_preference` returns for that name. -/
theorem C14_duplicate_record_name (file : PrefFile) (now : Int) (k : String) (hk : k ≠ "") :
    (∃ root1, mark_notification_as_sent file now k = PrefFile.object root1 ∧
      json_object_get_member root1 ("notification_duplicate_" ++ k) =
        some (JsonNode.string (to_string now))) ∧
    (∀ (file2 : PrefFile) (t w : Int),
      is_duplicate_notification file2 t k w =
        if load_preference file2 ("notification_duplicate_" ++ k) = "" then some false
        else (stoll (load_preference file2 ("notification_duplicate_" ++ k))).map
          (fun last_sent => decide (t - last_sent < w))) := by
  constructor
  · simp only [mark_notification_as_sent, hk, if_false]
    exact save_preferences_member file ("notification_duplicate_" ++ k) (to_string now)
  · intro file2 t w
    simp only [is_duplicate_notification, hk, if_false, DUPLICATE_KEY_PREFIX]
    split
    · rfl
    · cases stoll (load_preference file2 ("notification_duplicate_" ++ k)) <;> rfl

/-- C14, as amended, at a concrete input: marking `promoX` at second 1000 in an absent file
writes the member `notification_duplicate_promoX` with the string `1000`. -/
theorem C14_duplicate_record_name_witness :
    "promoX" ≠ "" ∧
    ∃ root1, mark_notification_as_sent PrefFile.missing 1000 "promoX" =
        PrefFile.object root1 ∧
      json_object_get_member root1 ("notification_duplicate_" ++ "promoX") =
        some (JsonNode.string (to_string 1000)) :=
  ⟨by decide, (C14_duplicate_record_name PrefFile.missing 1000 "promoX" (by decide)).1⟩

/-- C14 as stated fails: after `mark_notification_as_sent` of `promoX` at second 1000 in an
absent file, the only member of the file is named `notification_duplicate_promoX`; there is
no member named `duplicate_promoX`. -/
theorem C14_duplicate_name_counterexample :
    "promoX" ≠ "" ∧
    ∃ root1, mark_notification_as_sent PrefFile.missing 1000 "promoX" =
        PrefFile.object root1 ∧
      json_object_get_members root1 = ["notification_duplicate_promoX"] ∧
      json_object_get_member root1 ("duplicate_" ++ "promoX") = none ∧
      load_preference (mark_notification_as_sent PrefFile.missing 1000 "promoX")
        ("duplicate_" ++ "promoX") = "" :=
  ⟨by decide, _, rfl, by decide, by decide, by decide⟩

/-! ## C15: update inserts or overwrites -/

/-- In a list with distinct names, the pairs under `key` are the one pair that `assoc_get`
finds. -/
theorem assoc_filter_key_nodup {V : Type} (l : List (String × V)) (key : String)
    (h : (l.map Prod.fst).Nodup) :
    l.filter (fun p => decide (p.1 = key)) =
      match assoc_get l key with
      | some v => [(key, v)]
      | none => [] := by
  induction l with
  | nil => rfl
  | cons p rest ih =>
    obtain ⟨a, x⟩ := p
    rw [List.map_cons, List.nodup_cons] at h
    by_cases hk : a = key
    · subst hk
      have hrest : rest.filter (fun p => decide (p.1 = a)) = [] := by
        rw [List.filter_eq_nil_iff]
        intro p hp hpa
        simp only [decide_eq_true_eq] at hpa
        have hmem : p.1 ∈ rest.map Prod.fst := List.mem_map_of_mem Prod.fst hp
        rw [hpa] at hmem
        exact h.1 hmem
      simp [assoc_get, hrest]
    · simp [assoc_get, hk, ih h.2]

/-- What `update_scheduled_notification` does for a request whose `id` is the string `id`. -/
theorem update_scheduled_notification_valid (w : World) (args : FlValue) (id : String)
    (hid : fl_value_lookup_string args "id" = some (FlValue.string id)) :
    update_scheduled_notification w args =
      some ({ w with
        self := { w.self with
          scheduled_notifications := w.self.scheduled_notifications.assign id "{}" },
        pref_file := save_preferences w.pref_file (SCHEDULED_KEY_PREFIX ++ id) "{}" }, true) := by
  have hmap := is_map_of_lookup args "id" _ hid
  unfold update_scheduled_notification
  simp only [hmap, hid, fl_value_get_string, Bool.not_true, Bool.false_eq_true, if_false]

/-- C15. `update_scheduled_notification` does not require the id to be known. For every world
and every id, scheduled or not, the call returns true; afterwards the in-memory scheduled map
holds exactly one entry for the id and the preference file holds an object with exactly one
member `scheduled_notification_<id>`; the entries of all other ids are unchanged in memory,
and in the file every other name reads as before (every other member of a prior root object
is kept). -/
theorem C15_update_inserts_or_overwrites (w : World) (args : FlValue) (id : String)
    (hid : fl_value_lookup_string args "id" = some (FlValue.string id)) :
    ∃ w1 root1, update_scheduled_notification w args = some (w1, true) ∧
      (∃ data, (get_scheduled_notifications w1).filter (fun e => decide (e.1 = id)) =
        [(id, data)]) ∧
      (∀ other, other ≠ id →
        w1.self.scheduled_notifications.find other =
          w.self.scheduled_notifications.find other) ∧
      w1.pref_file = PrefFile.object root1 ∧
      (∃ node, root1.members.filter (fun m => decide (m.1 = SCHEDULED_KEY_PREFIX ++ id)) =
        [(SCHEDULED_KEY_PREFIX ++ id, node)]) ∧
      (∀ other, other ≠ id →
        load_preference w1.pref_file (SCHEDULED_KEY_PREFIX ++ other) =
          load_preference w.pref_file (SCHEDULED_KEY_PREFIX ++ other)) ∧
      (∀ root_obj, w.pref_file = PrefFile.object root_obj →
        ∀ name, name ≠ SCHEDULED_KEY_PREFIX ++ id →
          json_object_get_member root1 name = json_object_get_member root_obj name) := by
  obtain ⟨root1, hroot, hmem⟩ :=
    save_preferences_member w.pref_file (SCHEDULED_KEY_PREFIX ++ id) "{}"
  refine ⟨_, root1, update_scheduled_notification_valid w args id hid, ⟨"{}", ?_⟩, ?_, hroot,
    ⟨JsonNode.string "{}", ?_⟩, ?_, ?_⟩
  · unfold get_scheduled_notifications
    rw [StdMap.entries_of_key]
    simp only [StdMap.find_assign_same]
  · intro other hne
    exact StdMap.find_assign_other _ id other "{}" hne
  · rw [assoc_filter_key_nodup root1.members _ root1.distinct]
    have h : assoc_get root1.members (SCHEDULED_KEY_PREFIX ++ id) =
        some (JsonNode.string "{}") := hmem
    rw [h]
  · intro other hne
    exact load_preference_save_other _ _ _ _ (fun e => hne (prefixed_key_inj _ _ _ e))
  · intro root_obj hfile name hne
    have hsave : save_preferences w.pref_file (SCHEDULED_KEY_PREFIX ++ id) "{}" =
        PrefFile.object root1 := hroot
    rw [hfile, save_preferences_object] at hsave
    cases hsave
    exact assoc_get_set_tail_other root_obj.members _ name _ hne

/-- C15 at concrete inputs: updating the unknown id `s2` and the known id `s1` in a world that
has `s1` scheduled both return true. -/
theorem C15_update_inserts_or_overwrites_witness :
    (∃ w1, update_scheduled_notification scheduled_world (id_args "s2") = some (w1, true) ∧
      (get_scheduled_notifications w1).map Prod.fst = ["s1", "s2"]) ∧
    (∃ w1, update_scheduled_notification scheduled_world (id_args "s1") = some (w1, true) ∧
      (get_scheduled_notifications w1).map Prod.fst = ["s1"]) := by
  obtain ⟨w2, _, h2, _⟩ := C15_update_inserts_or_overwrites scheduled_world (id_args "s2")
    "s2" rfl
  obtain ⟨w1, _, h1, _⟩ := C15_update_inserts_or_overwrites scheduled_world (id_args "s1")
    "s1" rfl
  have e2 : (update_scheduled_notification scheduled_world (id_args "s2")).map
      (fun r => (get_scheduled_notifications r.1).map Prod.fst) = some ["s1", "s2"] := by
    decide
  have e1 : (update_scheduled_notification scheduled_world (id_args "s1")).map
      (fun r => (get_scheduled_notifications r.1).map Prod.fst) = some ["s1"] := by
    decide
  rw [h2] at e2
  rw [h1] at e1
  exact ⟨⟨w2, h2, by simpa using e2⟩, ⟨w1, h1, by simpa using e1⟩⟩

/-! ## C16: the closed signal evicts only the entry of its handle -/

theorem on_notification_closed_entries (w : World) (h : Handle) :
    (on_notification_closed w h).self.active_notifications.entries =
      w.self.active_notifications.entries.eraseP (fun e => decide (e.2 = h)) := rfl

/-- C16. For every world and handle `h`, `on_notification_closed(h)`: leaves the registry (and
the whole world) unchanged when no entry holds `h`; keeps every entry whose handle is not
`h`; when an entry holds `h`, removes one such entry, the first in key order, and keeps all
others in place; and when `h` is held by the entry of `id` alone, leaves no entry for `id`
and no entry holding `h`. So a close signal for a superseded handle does not evict the newer
entry registered under the same id. -/
theorem C16_closed_evicts_only_its_entry (w : World) (h : Handle) :
    ((∀ id, w.self.active_notifications.find id ≠ some h) → on_notification_closed w h = w) ∧
    (∀ id h2, w.self.active_notifications.find id = some h2 → h2 ≠ h →
      (on_notification_closed w h).self.active_notifications.find id = some h2) ∧
    ((∃ id, w.self.active_notifications.find id = some h) →
      ∃ l1 id l2, w.self.active_notifications.entries = l1 ++ (id, h) :: l2 ∧
        (∀ e ∈ l1, e.2 ≠ h) ∧
        (on_notification_closed w h).self.active_notifications.entries = l1 ++ l2) ∧
    (∀ id, w.self.active_notifications.find id = some h →
      (∀ other, w.self.active_notifications.find other = some h → other = id) →
      (on_notification_closed w h).self.active_notifications.find id = none ∧
      ∀ other, (on_notification_closed w h).self.active_notifications.find other ≠ some h) := by
  have hsorted := w.self.active_notifications.ascending
  have hsorted1 := (on_notification_closed w h).self.active_notifications.ascending
  have hsplit : ∀ id, w.self.active_notifications.find id = some h →
      ∃ l1 id1 l2, w.self.active_notifications.entries = l1 ++ (id1, h) :: l2 ∧
        (∀ e ∈ l1, e.2 ≠ h) ∧
        (on_notification_closed w h).self.active_notifications.entries = l1 ++ l2 := by
    intro id hid
    obtain ⟨e, l1, l2, hl1, he, hent, hera⟩ :=
      List.exists_of_eraseP (p := fun e : String × Handle => decide (e.2 = h))
        (assoc_get_mem _ _ _ hid) (by simp)
    obtain ⟨id1, v⟩ := e
    simp only [decide_eq_true_eq] at he
    subst he
    refine ⟨l1, id1, l2, hent, ?_, ?_⟩
    · intro e he2
      simpa using hl1 e he2
    · rw [on_notification_closed_entries]; exact hera
  refine ⟨?_, ?_, ?_, ?_⟩
  · intro hnone
    have hent : (on_notification_closed w h).self.active_notifications =
        w.self.active_notifications := by
      apply StdMap.ext_entries
      rw [on_notification_closed_entries]
      apply List.eraseP_of_forall_not
      intro e he hval
      obtain ⟨key, v⟩ := e
      simp only [decide_eq_true_eq] at hval
      subst hval
      exact hnone key (assoc_get_of_mem _ _ _ hsorted he)
    unfold on_notification_closed at hent ⊢
    simp only at hent
    rw [hent]
  · intro id h2 hid hne
    apply assoc_get_of_mem _ _ _ hsorted1
    rw [on_notification_closed_entries, List.mem_eraseP_of_neg (by simpa using hne)]
    exact assoc_get_mem _ _ _ hid
  · intro hex
    obtain ⟨id, hid⟩ := hex
    exact hsplit id hid
  · intro id hid huniq
    obtain ⟨l1, id1, l2, hent, hl1, hera⟩ := hsplit id hid
    have hid1 : id1 = id := by
      apply huniq
      apply assoc_get_of_mem _ _ _ hsorted
      rw [hent]; simp
    subst hid1
    have hsub : ∀ e, e ∈ (on_notification_closed w h).self.active_notifications.entries →
        e ∈ w.self.active_notifications.entries := by
      intro e he
      rw [hera] at he
      rw [hent]
      rcases List.mem_append.1 he with h1 | h1
      · exact List.mem_append_left _ h1
      · exact List.mem_append_right _ (List.mem_cons_of_mem _ h1)
    have hgone : (on_notification_closed w h).self.active_notifications.find id1 = none := by
      cases hf : (on_notification_closed w h).self.active_notifications.find id1 with
      | none => rfl
      | some v =>
        exfalso
        have hmem := assoc_get_mem _ _ _ hf
        have hv : w.self.active_notifications.find id1 = some v :=
          assoc_get_of_mem _ _ _ hsorted (hsub _ hmem)
        rw [hid] at hv
        cases hv
        rw [hera] at hmem
        rw [hent, List.pairwise_append] at hsorted
        rcases List.mem_append.1 hmem with h1 | h1
        · exact hl1 _ h1 rfl
        · have hlt := (List.pairwise_cons.1 hsorted.2.1).1 _ h1
          exact string_lt_ne _ _ hlt rfl
    refine ⟨hgone, ?_⟩
    intro other hother
    have hv : w.self.active_notifications.find other = some h :=
      assoc_get_of_mem _ _ _ hsorted (hsub _ (assoc_get_mem _ _ _ hother))
    have := huniq other hv
    subst this
    rw [hgone] at hother
    cases hother

/-- C16 at the supersession scenario: `n1` was shown on handle 1 and then on handle 2. The
close signal of handle 1 changes nothing; the close signal of handle 2 removes the entry. -/
theorem C16_closed_evicts_only_its_entry_witness :
    on_notification_closed superseded_world 1 = superseded_world ∧
    (on_notification_closed superseded_world 1).self.active_notifications.find "n1" = some 2 ∧
    (on_notification_closed superseded_world 2).self.active_notifications.find "n1" = none := by
  have hent : superseded_world.self.active_notifications.entries = [("n1", 2)] := by decide
  have hfind : ∀ id v, superseded_world.self.active_notifications.find id = some v →
      id = "n1" ∧ v = 2 := by
    intro id v hf
    have hm := assoc_get_mem _ _ _ hf
    rw [hent] at hm
    simpa using hm
  have h := C16_closed_evicts_only_its_entry superseded_world 1
  have h2 := C16_closed_evicts_only_its_entry superseded_world 2
  refine ⟨h.1 ?_, h.2.1 "n1" 2 (by decide) (by decide), (h2.2.2.2 "n1" (by decide) ?_).1⟩
  · intro id hid
    exact absurd (hfind id 1 hid).2 (by decide)
  · intro other hother
    exact (hfind other 2 hother).1

/-! ## C17: a window that is not positive -/

/-- With a window that is not positive, a record that is absent or holds a time not later than
now is never a duplicate. -/
theorem is_duplicate_nonpositive_window (file : PrefFile) (k : String) (w t : Int)
    (hw : w ≤ 0)
    (hrec : load_preference file (DUPLICATE_KEY_PREFIX ++ k) = "" ∨
      ∃ T, stoll (load_preference file (DUPLICATE_KEY_PREFIX ++ k)) = some T ∧ T ≤ t) :
    is_duplicate_notification file t k w = some false := by
  unfold is_duplicate_notification
  split
  · rfl
  · rcases hrec with h | ⟨T, hT, hle⟩
    · simp [h]
    · simp only [hT]
      split
      · rfl
      · have : ¬ t - T < w := by omega
        simp [this]

/-- C17, as amended. Let the record of key `k` be absent, or hold a timestamp not later than
the time `t` of the check. Then `is_duplicate_notification(k, w)` returns false for every
window `w ≤ 0`; and a show carrying `duplicateKey` `k` with a window `w ≤ 0` that fits an
`int` is not suppressed: it marks the key, registers the handle and returns the outcome of
the render. -/
theorem C17_nonpositive_window_never_duplicate (world : World) (env : ShowEnv) (k : String)
    (hrec : load_preference world.pref_file (DUPLICATE_KEY_PREFIX ++ k) = "" ∨
      ∃ T, stoll (load_preference world.pref_file (DUPLICATE_KEY_PREFIX ++ k)) = some T ∧
        T ≤ env.now_check) :
    (∀ w : Int, w ≤ 0 →
      is_duplicate_notification world.pref_file env.now_check k w = some false) ∧
    (∀ (w : Int) (args : FlValue) (id : String), w ≤ 0 → INT_MIN ≤ w →
      is_dedup_request args (FlValue.string id) k w →
      show_notification world env args =
        some (shown_world world env args
            (mark_notification_as_sent world.pref_file env.now_mark k) id,
          if env.error then false else env.success)) := by
  constructor
  · intro w hw
    exact is_duplicate_nonpositive_window _ k w _ hw hrec
  · intro w args id hw hmin hreq
    have hhi : w ≤ INT_MAX := le_trans hw (by decide)
    rw [show_notification_dedup world env args _ k w hreq hmin hhi false
      (is_duplicate_nonpositive_window _ k w _ hw hrec)]
    simp [fl_value_get_string]

/-- C17, as amended, at a concrete input: `promoX` was marked at second 1000; a show with
window 0 at second 1000 is not suppressed. -/
theorem C17_nonpositive_window_never_duplicate_witness :
    is_duplicate_notification promo_marked_world.pref_file 1000 "promoX" 0 = some false ∧
    show_notification promo_marked_world (render_ok 1000 2) (promo_args "n2" 0) =
      some (shown_world promo_marked_world (render_ok 1000 2) (promo_args "n2" 0)
        (mark_notification_as_sent promo_marked_world.pref_file 1000 "promoX") "n2", true) := by
  have h := C17_nonpositive_window_never_duplicate promo_marked_world (render_ok 1000 2)
    "promoX" (Or.inr ⟨1000, by decide, by decide⟩)
  exact ⟨h.1 0 (by decide),
    h.2 0 (promo_args "n2" 0) "n2" (by decide) (by decide)
      (promo_args_is_dedup_request "n2" 0)⟩

/-- C17 as stated fails for a window `w ≤ 0` that does not fit an `int`. With
`w = -4294967236 = 60 - 2^32` the first show of `promoX` at second 1000 returns true and
marks the key; the next show with the same key and window at second 1000, not earlier than
the recorded timestamp, is suppressed: `int time_window` is 60. -/
theorem C17_window_below_int_counterexample :
    (-4294967236 : Int) ≤ 0 ∧
    show_notification World.initial (render_ok 1000 1) (promo_args "n1" (-4294967236)) =
      some (promo_shown_world (-4294967236), true) ∧
    stoll (load_preference (promo_shown_world (-4294967236)).pref_file
      (DUPLICATE_KEY_PREFIX ++ "promoX")) = some 1000 ∧
    show_notification (promo_shown_world (-4294967236)) (render_ok 1000 2)
      (promo_args "n2" (-4294967236)) = some (promo_shown_world (-4294967236), false) := by
  decide

/-! ## C18: the two key namespaces and the timestamp parse -/

theorem assoc_set_tail_mem {V : Type} (l : List (String × V)) (key : String) (v : V)
    (m : String × V) (hm : m ∈ assoc_set_tail l key v) : m ∈ l ∨ m = (key, v) := by
  induction l with
  | nil =>
    simp only [assoc_set_tail, List.mem_singleton] at hm
    exact Or.inr hm
  | cons p rest ih =>
    obtain ⟨a, x⟩ := p
    by_cases h : a = key
    · simp only [assoc_set_tail, h, if_true, List.mem_cons] at hm
      rcases hm with e | e
      · exact Or.inr e
      · exact Or.inl (List.mem_cons_of_mem _ e)
    · simp only [assoc_set_tail, h, if_false, List.mem_cons] at hm
      rcases hm with e | e
      · exact Or.inl (by rw [e]; exact List.mem_cons_self _ _)
      · rcases ih e with e2 | e2
        · exact Or.inl (List.mem_cons_of_mem _ e2)
        · exact Or.inr e2

theorem record_wellformed_mono (clocks more : List Int) (m : String × JsonNode)
    (h : record_wellformed clocks m) : record_wellformed (clocks ++ more) m := by
  rcases h with h | ⟨k, T, hk, hT, hm⟩
  · exact Or.inl h
  · exact Or.inr ⟨k, T, hk, List.mem_append_left _ hT, hm⟩

/-- Saving a well-formed record into a well-formed store leaves a well-formed store. -/
theorem store_wellformed_save (clocks : List Int) (file : PrefFile) (key value : String)
    (hfile : store_wellformed clocks file)
    (hrec : record_wellformed clocks (key, JsonNode.string value)) :
    store_wellformed clocks (save_preferences file key value) := by
  right
  rcases hfile with hmiss | ⟨root_obj, hroot, hall⟩
  · subst hmiss
    refine ⟨_, rfl, ?_⟩
    intro m hm
    rcases assoc_set_tail_mem _ _ _ m hm with e | e
    · cases e
    · rw [e]; exact hrec
  · subst hroot
    refine ⟨_, save_preferences_object root_obj key value, ?_⟩
    intro m hm
    rcases assoc_set_tail_mem _ _ _ m hm with e | e
    · exact hall m e
    · rw [e]; exact hrec

/-- Every `StoreEffect` keeps the store well formed, with the clock reading of the effect
added to the readings seen. -/
theorem store_wellformed_effect (clears : Bool) (now : Int) (clocks : List Int) (w w1 : World)
    (h : StoreEffect clears now w w1) (hinv : store_wellformed clocks w.pref_file) :
    store_wellformed (clocks ++ [now]) w1.pref_file := by
  have hinv1 : store_wellformed (clocks ++ [now]) w.pref_file := by
    rcases hinv with hmiss | ⟨root_obj, hroot, hall⟩
    · exact Or.inl hmiss
    · exact Or.inr ⟨root_obj, hroot, fun m hm => record_wellformed_mono _ _ m (hall m hm)⟩
  cases h with
  | same _ hfile => rw [hfile]; exact hinv1
  | marked k hk _ hfile =>
    rw [hfile]
    exact store_wellformed_save _ _ _ _ hinv1 (Or.inr ⟨k, now, hk, by simp, rfl⟩)
  | stored id data _ hfile =>
    rw [hfile]
    exact store_wellformed_save _ _ _ _ hinv1 (Or.inl ⟨id, data, rfl⟩)
  | dropped id _ hfile =>
    rw [hfile]
    rcases hinv1 with hmiss | ⟨root_obj, hroot, hall⟩
    · rw [hmiss]; exact Or.inl rfl
    · rw [hroot]
      refine Or.inr ⟨_, rfl, ?_⟩
      intro m hm
      exact hall m (List.mem_of_mem_filter hm)
  | dropped_all _ hfile =>
    rw [hfile]
    rcases hinv1 with hmiss | ⟨root_obj, hroot, hall⟩
    · rw [hmiss]; exact Or.inl rfl
    · rw [hroot]
      refine Or.inr ⟨_, rfl, ?_⟩
      intro m hm
      rw [remove_scheduled_members_eq] at hm
      exact hall m (List.mem_of_mem_filter hm)
  | cleared _ _ hfile => rw [hfile]; exact Or.inl rfl

/-- A run keeps the store well formed, with the clock readings of its operations added. -/
theorem store_wellformed_run (ops : List Op) :
    ∀ (w w1 : World) (clocks : List Int), run w ops = some w1 →
      store_wellformed clocks w.pref_file →
      store_wellformed (clocks ++ ops.map Op.mark_clock) w1.pref_file := by
  induction ops with
  | nil =>
    intro w w1 clocks hrun hinv
    simp only [run, Option.some.injEq] at hrun
    rw [← hrun]
    simpa using hinv
  | cons op rest ih =>
    intro w w1 clocks hrun hinv
    unfold run at hrun
    cases hstep : step w op with
    | none => rw [hstep] at hrun; cases hrun
    | some w2 =>
      rw [hstep] at hrun
      have h2 := store_wellformed_effect _ _ clocks w w2 (step_effect w w2 op hstep).2 hinv
      have h3 := ih w2 w1 _ hrun h2
      simpa using h3

theorem scheduled_key_not_duplicate (id : String) :
    g_str_has_prefix (SCHEDULED_KEY_PREFIX ++ id) DUPLICATE_KEY_PREFIX = false := by
  simp [ g_str_has_prefix, DUPLICATE_KEY_PREFIX, SCHEDULED_KEY_PREFIX, String.data_append,
    List.isPrefixOf]

/-- In a well-formed store whose clock readings fit a `long long`, the record of a dedup key is
empty or a text that `stoll` reads. -/
theorem store_wellformed_record (clocks : List Int) (file : PrefFile) (k : String)
    (hinv : store_wellformed clocks file)
    (hfit : ∀ T ∈ clocks, INT64_MIN ≤ T ∧ T ≤ INT64_MAX) :
    load_preference file (DUPLICATE_KEY_PREFIX ++ k) = "" ∨
      ∃ T, stoll (load_preference file (DUPLICATE_KEY_PREFIX ++ k)) = some T := by
  rcases hinv with hmiss | ⟨root_obj, hroot, hall⟩
  · left; rw [hmiss]; rfl
  · rw [hroot]
    cases hget : json_object_get_member root_obj (DUPLICATE_KEY_PREFIX ++ k) with
    | none => left; simp [load_preference, json_object_get_string_member, hget]
    | some node =>
      cases node with
      | other raw => left; simp [load_preference, json_object_get_string_member, hget]
      | string text =>
        right
        have hload : load_preference (PrefFile.object root_obj) (DUPLICATE_KEY_PREFIX ++ k) =
            text := by
          simp [load_preference, json_object_get_string_member, hget]
        rw [hload]
        rcases hall _ (assoc_get_mem _ _ _ hget) with ⟨id, data, e⟩ | ⟨k2, T, _, hT, e⟩
        · simp only [Prod.mk.injEq] at e
          exact absurd e.1.symm (scheduled_key_ne_duplicate_key id k)
        · simp only [Prod.mk.injEq, JsonNode.string.injEq] at e
          rw [e.2]
          exact ⟨T, stoll_to_string T (hfit T hT).1 (hfit T hT).2⟩

/-- C18. Take any state reached from the initial state (no preference file) by a sequence of
the plugin's operations with arbitrary ids, keys and payloads, every clock reading being a
`long long`. No scheduled key `scheduled_notification_<id>` equals a duplicate key
`notification_duplicate_<k>`. The preference file is absent or an object, and every member
whose name starts with the duplicate prefix is the record of a non-empty key holding the
decimal text of a clock reading of one of the operations, as `mark_notification_as_sent`
writes it, which `std::stoll` reads back. Hence `is_duplicate_notification` returns a result
for every key, time and window: its `std::stoll` does not throw. -/
theorem C18_timestamp_parse_is_safe (ops : List Op) (w : World)
    (hclock : ops.all Op.clock_fits = true) (hrun : run World.initial ops = some w) :
    (∀ id k, SCHEDULED_KEY_PREFIX ++ id ≠ DUPLICATE_KEY_PREFIX ++ k) ∧
    (w.pref_file = PrefFile.missing ∨ ∃ root_obj, w.pref_file = PrefFile.object root_obj ∧
      ∀ name node, (name, node) ∈ root_obj.members →
        g_str_has_prefix name DUPLICATE_KEY_PREFIX = true →
        ∃ k T, k ≠ "" ∧ T ∈ ops.map Op.mark_clock ∧ name = DUPLICATE_KEY_PREFIX ++ k ∧
          node = JsonNode.string (to_string T) ∧ stoll (to_string T) = some T) ∧
    (∀ (k : String) (now window : Int),
      is_duplicate_notification w.pref_file now k window ≠ none) := by
  have hinv : store_wellformed (ops.map Op.mark_clock) w.pref_file := by
    have h := store_wellformed_run ops World.initial w [] hrun (Or.inl rfl)
    simpa using h
  have hfit : ∀ T ∈ ops.map Op.mark_clock, INT64_MIN ≤ T ∧ T ≤ INT64_MAX := by
    intro T hT
    obtain ⟨op, hop, rfl⟩ := List.mem_map.1 hT
    have := List.all_eq_true.1 hclock op hop
    simpa [Op.clock_fits] using this
  refine ⟨scheduled_key_ne_duplicate_key, ?_, ?_⟩
  · rcases hinv with hmiss | ⟨root_obj, hroot, hall⟩
    · exact Or.inl hmiss
    · refine Or.inr ⟨root_obj, hroot, ?_⟩
      intro name node hmem hpre
      rcases hall _ hmem with ⟨id, data, e⟩ | ⟨k, T, hk, hT, e⟩
      · simp only [Prod.mk.injEq] at e
        rw [e.1, scheduled_key_not_duplicate] at hpre
        cases hpre
      · simp only [Prod.mk.injEq] at e
        exact ⟨k, T, hk, hT, e.1, e.2, stoll_to_string T (hfit T hT).1 (hfit T hT).2⟩
  · intro k now window
    unfold is_duplicate_notification
    split
    · simp
    · rcases store_wellformed_record _ _ k hinv hfit with h | ⟨T, hT⟩
      · simp [h]
      · simp only [hT]
        split <;> simp

/-- C18 at a concrete run: after two marks of `promoX` and a scheduled entry, the duplicate
check of `promoX` returns a result. -/
theorem C18_timestamp_parse_is_safe_witness :
    ∃ w, run World.initial two_marks_ops = some w ∧
      is_duplicate_notification w.pref_file 1100 "promoX" 60 ≠ none := by
  have hrun : (run World.initial two_marks_ops).isSome = true := by decide
  obtain ⟨w, hw⟩ := Option.isSome_iff_exists.1 hrun
  exact ⟨w, hw,
    (C18_timestamp_parse_is_safe two_marks_ops w (by decide) hw).2.2 "promoX" 1100 60⟩

/-! ## C19: scheduling stores nothing about when to fire -/

/-- C19. For every world, id and request blob, two `schedule_notification` calls whose
arguments agree on `id` and `request` and both carry a `scheduledDate`, whatever the values of
`scheduledDate`, `isRepeating` and `repeatInterval` (or of any other member), return the same
result and leave identical worlds: the stored entry is a function of `id` and `request`
only. -/
theorem C19_schedule_ignores_timing (w : World) (args1 args2 date1 date2 : FlValue)
    (id data : String)
    (hid1 : fl_value_lookup_string args1 "id" = some (FlValue.string id))
    (hid2 : fl_value_lookup_string args2 "id" = some (FlValue.string id))
    (hreq1 : fl_value_lookup_string args1 "request" = some (FlValue.string data))
    (hreq2 : fl_value_lookup_string args2 "request" = some (FlValue.string data))
    (hdate1 : fl_value_lookup_int args1 "scheduledDate" = some date1)
    (hdate2 : fl_value_lookup_int args2 "scheduledDate" = some date2) :
    schedule_notification w args1 = schedule_notification w args2 ∧
    schedule_notification w args1 =
      some ({ w with
        self := { w.self with
          scheduled_notifications := w.self.scheduled_notifications.assign id data },
        pref_file := save_preferences w.pref_file (SCHEDULED_KEY_PREFIX ++ id) data }, true) := by
  have h1 := schedule_notification_valid w args1 date1 id data hid1 hreq1 hdate1
  have h2 := schedule_notification_valid w args2 date2 id data hid2 hreq2 hdate2
  exact ⟨by rw [h1, h2], h1⟩

/-- C19 at a concrete input: scheduling `s1` for second 4600 and scheduling it for second
9999, repeating every 60 seconds, give the same result and world. -/
theorem C19_schedule_ignores_timing_witness :
    schedule_notification World.initial (schedule_args "s1" x1_blob) =
      schedule_notification World.initial (repeating_schedule_args "s1" x1_blob) :=
  (C19_schedule_ignores_timing World.initial (schedule_args "s1" x1_blob)
    (repeating_schedule_args "s1" x1_blob) (FlValue.int 4600) (FlValue.int 9999) "s1" x1_blob
    rfl rfl rfl rfl rfl rfl).1

/-! ## C20: update discards the payload -/

/-- C20. For every world and id, whatever data the id was scheduled with before and whatever
else the request carries, `update_scheduled_notification` returns true and afterwards the
entry that `get_scheduled_notifications` lists for the id, and the value stored under
`scheduled_notification_<id>` in the preference file, is the literal string of an opening and
a closing brace. -/
theorem C20_update_discards_payload (w : World) (args : FlValue) (id : String)
    (hid : fl_value_lookup_string args "id" = some (FlValue.string id)) :
    ∃ w1, update_scheduled_notification w args = some (w1, true) ∧
      (get_scheduled_notifications w1).filter (fun e => decide (e.1 = id)) = [(id, "{}")] ∧
      load_preference w1.pref_file (SCHEDULED_KEY_PREFIX ++ id) = "{}" ∧
      ∃ root1, w1.pref_file = PrefFile.object root1 ∧
        json_object_get_member root1 (SCHEDULED_KEY_PREFIX ++ id) =
          some (JsonNode.string "{}") := by
  refine ⟨_, update_scheduled_notification_valid w args id hid, ?_,
    load_preference_save_same _ _ _, save_preferences_member _ _ _⟩
  unfold get_scheduled_notifications
  rw [StdMap.entries_of_key]
  simp only [StdMap.find_assign_same]

/-- C20 at a concrete input: `s1` is scheduled with `x1_blob`; an update of `s1` that carries
another request blob leaves the two-brace string in the list and in the file. -/
theorem C20_update_discards_payload_witness :
    get_scheduled_notifications scheduled_world = [("s1", x1_blob)] ∧
    ∃ w1, update_scheduled_notification scheduled_world
        (update_args_with_payload "s1" "payload") = some (w1, true) ∧
      (get_scheduled_notifications w1).filter (fun e => decide (e.1 = "s1")) = [("s1", "{}")] ∧
      load_preference w1.pref_file (SCHEDULED_KEY_PREFIX ++ "s1") = "{}" := by
  obtain ⟨w1, h1, h2, h3, _⟩ := C20_update_discards_payload scheduled_world
    (update_args_with_payload "s1" "payload") "s1" rfl
  exact ⟨by decide, w1, h1, h2, h3⟩

end NotificationManager
